import Mathlib

/-!
Verification of the address-management core of `neutron/db/db_base_plugin_v2.py`
(OpenStack Neutron, V2 db base plugin).

The development shallowly embeds the data model and the operations of the
source file: IP prefixes become structured CIDR values, `netaddr.IPSet`
operations become interval algebra over `Nat` (an address is encoded as
`version * 2^128 + value`, so IPv4 and IPv6 addresses never collide), the
database context becomes explicit state records, and Python exceptions become
`Except` errors.
-/

/-! ### Interval algebra (embedding of `netaddr.IPSet` semantics)

An interval `(lo, hi)` denotes the half-open set of encoded addresses
`[lo, hi)`.  A `netaddr.IPSet` is a finite union of such intervals. -/

instance exceptDecEq {e a : Type} [DecidableEq e] [DecidableEq a] :
    DecidableEq (Except e a)
  | .ok x, .ok y =>
    if h : x = y then .isTrue (by rw [h])
    else .isFalse (fun hc => h (by cases hc; rfl))
  | .ok _, .error _ => .isFalse (fun hc => by cases hc)
  | .error _, .ok _ => .isFalse (fun hc => by cases hc)
  | .error x, .error y =>
    if h : x = y then .isTrue (by rw [h])
    else .isFalse (fun hc => h (by cases hc; rfl))

/-- A half-open interval of encoded addresses: `(lo, hi)` denotes `[lo, hi)`. -/
abbrev Iv := Nat × Nat

/-- Membership of an address in the union of a list of intervals. -/
def memSet (l : List Iv) (a : Nat) : Prop :=
  ∃ i ∈ l, i.1 ≤ a ∧ a < i.2

instance memSet.dec (l : List Iv) (a : Nat) : Decidable (memSet l a) :=
  List.decidableBEx _ l

/-- All intervals in the list are nonempty. -/
def AllPos (l : List Iv) : Prop := ∀ i ∈ l, i.1 < i.2

/-- Intervals are listed in ascending order of lower bound. -/
def LoSorted (l : List Iv) : Prop := List.Chain' (fun i j : Iv => i.1 ≤ j.1) l

/-- Insert an interval into a list sorted by lower bound. -/
def insIv (x : Iv) : List Iv → List Iv
  | [] => [x]
  | y :: ys => if x.1 ≤ y.1 then x :: y :: ys else y :: insIv x ys

/-- Insertion sort of intervals by lower bound. -/
def sortIvs : List Iv → List Iv
  | [] => []
  | x :: xs => insIv x (sortIvs xs)

/-- Merge a new interval, starting no later than every interval of `out`,
into an already merged list: absorb every interval of `out` that overlaps or
touches it, then prepend. -/
def insMerge (x : Iv) : List Iv → List Iv
  | [] => [x]
  | y :: out => if y.1 ≤ x.2 then insMerge (x.1, max x.2 y.2) out else x :: y :: out

/-- Merge overlapping or adjacent intervals in a list sorted by lower bound. -/
def mergeSep (l : List Iv) : List Iv := l.foldr insMerge []

/-- Normal form of an interval list: sorted and with overlapping/adjacent
intervals merged (the internal representation `netaddr.IPSet` maintains). -/
def normalizeIvs (l : List Iv) : List Iv := mergeSep (sortIvs l)

/-- Whether interval `i` lies inside a single interval of `m`. -/
def coveredb (i : Iv) (m : List Iv) : Bool :=
  m.any (fun j => decide (j.1 ≤ i.1) && decide (i.2 ≤ j.2))

/-- Embedding of `netaddr.IPSet.issubset`: every address of `A` is in `B`. -/
def issubset (A B : List Iv) : Bool :=
  (normalizeIvs A).all (fun i => coveredb i (normalizeIvs B))

/-- Embedding of a nonempty `netaddr.IPSet.intersection`: some address lies in
both `A` and `B`. -/
def intersectsb (A B : List Iv) : Bool :=
  A.any (fun i => B.any (fun j => decide (max i.1 j.1 < min i.2 j.2)))

/-- Separation: intervals appear in strictly increasing, non-touching order. -/
def SepIvs (l : List Iv) : Prop := List.Pairwise (fun i j : Iv => i.2 < j.1) l

/-! ### CIDR values and their encoding into intervals

A CIDR (e.g. `10.0.0.0/24`) is a version, a base address and a length.
Addresses are encoded into a single `Nat` line as `version * 2^128 + value`,
so the IPv4 and IPv6 families occupy disjoint, non-adjacent segments. -/

structure Cidr where
  version : Nat
  addr : Nat
  plen : Nat
deriving DecidableEq, Repr

/-- Width in bits of an address family (32 for IPv4, 128 for IPv6). -/
def bitsOf (version : Nat) : Nat := if version = 4 then 32 else 128

/-- Number of host bits of a CIDR. -/
def hostBits (c : Cidr) : Nat := bitsOf c.version - c.plen

/-- The half-open interval of encoded addresses covered by a CIDR.  The base
address is masked down to the network address, as `netaddr.IPNetwork.cidr`
does when a prefix is loaded into an `IPSet`. -/
def encodeCidr (c : Cidr) : Iv :=
  let sz := 2 ^ hostBits c
  let net := c.addr / sz * sz
  (c.version * 2 ^ 128 + net, c.version * 2 ^ 128 + net + sz)

/-- Embedding of `netaddr.IPSet(prefixes)`: the list of address intervals. -/
def ipset (ps : List Cidr) : List Iv := ps.map encodeCidr

/-! ### Splitting an interval back into maximal aligned CIDR blocks
(embedding of `IPSet.compact` followed by `IPSet.iter_cidrs`) -/

/-- Largest power of two at most `m` (for `m ≥ 1`). -/
def floorPow2 (m : Nat) : Nat :=
  if m ≤ 1 then 1 else 2 * floorPow2 (m / 2)
termination_by m
decreasing_by omega

/-- Largest power of two dividing `n` (for `n ≥ 1`; `1` when `n = 0`). -/
def largestPow2Dvd (n : Nat) : Nat :=
  if n = 0 then 1
  else if n % 2 = 0 then 2 * largestPow2Dvd (n / 2) else 1
termination_by n
decreasing_by omega

/-- Size of the maximal aligned CIDR block starting at `lo` inside `[lo, hi)`:
the alignment of `lo` capped by the largest power of two fitting in the
remaining space. -/
def blockSize (lo hi : Nat) : Nat :=
  max 1 (if lo = 0 then floorPow2 (hi - lo)
         else min (largestPow2Dvd lo) (floorPow2 (hi - lo)))

/-- Split `[lo, hi)` into maximal aligned blocks, in ascending order. -/
def cidrBlocks (lo hi : Nat) : List Iv :=
  if _h : lo < hi then
    (lo, lo + blockSize lo hi) :: cidrBlocks (lo + blockSize lo hi) hi
  else []
termination_by hi - lo
decreasing_by
  have := Nat.le_max_left 1 (if lo = 0 then floorPow2 (hi - lo)
    else min (largestPow2Dvd lo) (floorPow2 (hi - lo)))
  rw [← blockSize] at this
  omega

/-- Interval-level compaction: normalize, then split each maximal interval
into aligned CIDR blocks. -/
def compactIvs (X : List Iv) : List Iv :=
  ((normalizeIvs X).map (fun i => cidrBlocks i.1 i.2)).flatten

/-- Decode an aligned block back into a CIDR value (inverse of `encodeCidr`
on blocks produced by `cidrBlocks`). -/
def decodeBlock (b : Iv) : Cidr :=
  let v := b.1 / 2 ^ 128
  { version := v, addr := b.1 % 2 ^ 128, plen := bitsOf v - Nat.log2 (b.2 - b.1) }

/-- Embedding of `new_ip_set.compact(); ... new_ip_set.iter_cidrs()`: the
minimal ascending list of CIDRs covering the given interval set. -/
def compactSet (X : List Iv) : List Cidr :=
  (compactIvs X).map decodeBlock

/-! ### Subnetpool data model and errors

Embedding of the subnetpool rows and of the exceptions raised by the
subnetpool code paths of `db_base_plugin_v2.py`.  An error constructor
carries exactly the arguments passed at the corresponding `raise` site. -/

structure SubnetPool where
  id : String
  tenant_id : String
  ip_version : Nat
  prefixes : List Cidr
  min_prefixlen : Nat
  max_prefixlen : Nat
  default_prefixlen : Nat
  is_default : Bool
  shared : Bool
  address_scope_id : Option String
deriving DecidableEq, Repr

/-- A partial update dictionary for a subnetpool (`new_pool` in
`_update_subnetpool_dict`): a missing key leaves the original value. -/
structure SubnetPoolUpdate where
  prefixes : Option (List Cidr) := none
  min_prefixlen : Option Nat := none
  max_prefixlen : Option Nat := none
  default_prefixlen : Option Nat := none
  is_default : Option Bool := none
  shared : Option Bool := none
  address_scope_id : Option (Option String) := none
deriving DecidableEq, Repr

inductive PoolError
  | illegalSubnetPoolPrefixUpdate (msg : String)
  | illegalAssociation (subnetpool_id : String) (address_scope_id : String)
  | illegalIpVersionAssociation (subnetpool_id : String)
      (address_scope_id : String) (ip_version : Nat)
  | addressScopePrefixConflict
  | invalidInput (msg : String)
  | illegalUpdate (subnetpool_id : String) (address_scope_id : String)
  | subnetpoolNotFound (id : String)
deriving DecidableEq, Repr

/-- Merge step `updated = {k: new_pool.get(k, orig_pool[k]) for k in keys_to_update}`:
every field takes the new value when supplied, the original one otherwise. -/
def mergePool (orig : SubnetPool) (np : SubnetPoolUpdate) : SubnetPool :=
  { orig with
    min_prefixlen := np.min_prefixlen.getD orig.min_prefixlen
    max_prefixlen := np.max_prefixlen.getD orig.max_prefixlen
    default_prefixlen := np.default_prefixlen.getD orig.default_prefixlen
    is_default := np.is_default.getD orig.is_default
    shared := np.shared.getD orig.shared
    address_scope_id := np.address_scope_id.getD orig.address_scope_id }

/-- Embedding of `_update_subnetpool_dict` (db_base_plugin_v2.py:89-108):
merge the fields; when new prefixes are supplied, require the original
address set to be a subset of the new one and store the compacted form of
the new set, otherwise keep the original prefixes. -/
def updateSubnetpoolDict (orig : SubnetPool) (np : SubnetPoolUpdate) :
    Except PoolError SubnetPool :=
  match np.prefixes with
  | some nps =>
    if issubset (ipset orig.prefixes) (ipset nps) = true then
      .ok { mergePool orig np with prefixes := compactSet (ipset nps) }
    else
      .error (.illegalSubnetPoolPrefixUpdate
        "Existing prefixes must be a subset of the new prefixes")
  | none => .ok { mergePool orig np with prefixes := orig.prefixes }

/-- The database state relevant to the subnetpool operations, plus the two
facts `_validate_address_scope_id` obtains from the (external) address-scope
mixin: which scopes the calling tenant may use and each scope's family. -/
structure PoolCtx where
  ownedScopes : List String
  scopeVersions : List (String × Nat)
deriving DecidableEq, Repr

structure PoolState where
  pools : List SubnetPool
deriving DecidableEq, Repr

/-- Embedding of `get_ip_version_for_address_scope` (external collaborator, looked up in
the scope table of the context). -/
def scopeIpVersion (ctx : PoolCtx) (asid : String) : Nat :=
  ((ctx.scopeVersions.find? (fun p => p.1 = asid)).map (fun p => p.2)).getD 0

/-- The inner loop of `_validate_address_scope_id`: reject as soon as a pool
other than the one being validated has prefixes intersecting the new set. -/
def scanScopeConflicts (pools : List SubnetPool) (spId : Option String)
    (newSet : List Iv) : Except PoolError Unit :=
  match pools with
  | [] => .ok ()
  | sp :: rest =>
    if some sp.id = spId then scanScopeConflicts rest spId newSet
    else if intersectsb (ipset sp.prefixes) newSet = true then
      .error .addressScopePrefixConflict
    else scanScopeConflicts rest spId newSet

/-- Embedding of `_validate_address_scope_id` (db_base_plugin_v2.py:954-993).
In `create_subnetpool` the `subnetpool_id` argument is the Python builtin
`id`, which never equals a stored pool id, so the create path passes `none`
here. -/
def validateAddressScopeId (ctx : PoolCtx) (st : PoolState)
    (address_scope_id : Option String) (subnetpool_id : Option String)
    (sp_prefixes : List Cidr) (ip_version : Nat) : Except PoolError Unit :=
  match address_scope_id with
  | none => .ok ()
  | some asid =>
    if asid ∉ ctx.ownedScopes then
      .error (.illegalAssociation (subnetpool_id.getD "") asid)
    else if ip_version ≠ scopeIpVersion ctx asid then
      .error (.illegalIpVersionAssociation (subnetpool_id.getD "") asid
        (scopeIpVersion ctx asid))
    else
      scanScopeConflicts
        (st.pools.filter (fun sp => sp.address_scope_id = some asid))
        subnetpool_id (ipset sp_prefixes)

/-- Embedding of `_check_subnetpool_update_allowed`
(db_base_plugin_v2.py:995-1010). -/
def checkSubnetpoolUpdateAllowed (ctx : PoolCtx) (subnetpool_id : String)
    (address_scope_id : String) : Except PoolError Unit :=
  if address_scope_id ∈ ctx.ownedScopes then .ok ()
  else .error (.illegalUpdate subnetpool_id address_scope_id)

/-- Embedding of `get_default_subnetpool`: the first stored pool with
`is_default` set and the requested IP version. -/
def getDefaultSubnetpool (st : PoolState) (ip_version : Nat) :
    Option SubnetPool :=
  (st.pools.filter (fun p => p.is_default && p.ip_version == ip_version)).head?

/-- The message of the duplicate-default rejection. -/
def defaultExistsMsg : String :=
  "A default subnetpool for this IP family has already been set. Only one default may exist per IP family"

/-- Embedding of `_check_default_subnetpool_exists`
(db_base_plugin_v2.py:1012-1021). -/
def checkDefaultSubnetpoolExists (st : PoolState) (ip_version : Nat) :
    Except PoolError Unit :=
  match getDefaultSubnetpool st ip_version with
  | some _ => .error (.invalidInput defaultExistsMsg)
  | none => .ok ()

/-- Embedding of `create_subnetpool` (db_base_plugin_v2.py:1023-1052).
`SubnetPoolReader` (external `neutron.ipam.subnet_alloc`) is modelled as a
passthrough of the request fields. -/
def createSubnetpool (ctx : PoolCtx) (st : PoolState) (sp : SubnetPool) :
    Except PoolError (SubnetPool × PoolState) :=
  match (if sp.is_default then checkDefaultSubnetpoolExists st sp.ip_version
         else .ok ()) with
  | .error e => .error e
  | .ok _ =>
    match validateAddressScopeId ctx st sp.address_scope_id none sp.prefixes
        sp.ip_version with
    | .error e => .error e
    | .ok _ => .ok (sp, ⟨st.pools ++ [sp]⟩)

/-- Embedding of `update_subnetpool` (db_base_plugin_v2.py:1054-1090), up to
the committed state change.  `SubnetPoolReader` over the merged dictionary is
modelled as a passthrough. -/
def updateSubnetpool (ctx : PoolCtx) (st : PoolState) (id : String)
    (np : SubnetPoolUpdate) : Except PoolError (SubnetPool × PoolState) :=
  match st.pools.find? (fun p => p.id = id) with
  | none => .error (.subnetpoolNotFound id)
  | some orig =>
    match updateSubnetpoolDict orig np with
    | .error e => .error e
    | .ok updated =>
      match (if updated.is_default && !orig.is_default then
              checkDefaultSubnetpoolExists st updated.ip_version
             else .ok ()) with
      | .error e => .error e
      | .ok _ =>
        match (match orig.address_scope_id with
               | some asid => checkSubnetpoolUpdateAllowed ctx id asid
               | none => .ok ()) with
        | .error e => .error e
        | .ok _ =>
          match validateAddressScopeId ctx st updated.address_scope_id
              (some id) updated.prefixes updated.ip_version with
          | .error e => .error e
          | .ok _ =>
            .ok (updated,
              ⟨st.pools.map (fun p => if p.id = id then updated else p)⟩)

/-! ### Address-scope conflict detection (C3) -/

/-- The string arguments carried by each pool error, exactly as passed at its
`raise` site in the source. `AddressScopePrefixConflict` is raised with no
arguments, so it identifies no pool. -/
def poolErrArgs : PoolError → List String
  | .illegalSubnetPoolPrefixUpdate msg => [msg]
  | .illegalAssociation a b => [a, b]
  | .illegalIpVersionAssociation a b v => [a, b, toString v]
  | .addressScopePrefixConflict => []
  | .invalidInput m => [m]
  | .illegalUpdate a b => [a, b]
  | .subnetpoolNotFound i => [i]

/-- The invariant of one address scope: any two pools bound to it with
different ids cover disjoint address sets. -/
def ScopeDisjoint (st : PoolState) (asid : String) : Prop :=
  ∀ p ∈ st.pools, ∀ q ∈ st.pools,
    p.address_scope_id = some asid → q.address_scope_id = some asid →
    p.id ≠ q.id →
    ¬ ∃ a, memSet (ipset p.prefixes) a ∧ memSet (ipset q.prefixes) a

/-! ### Default-subnetpool uniqueness (C4) -/

/-- The invariant: at most one pool is the default of each IP family. -/
def AtMostOneDefault (st : PoolState) : Prop :=
  ∀ p ∈ st.pools, ∀ q ∈ st.pools, p.is_default = true → q.is_default = true →
    p.ip_version = q.ip_version → p.id = q.id

/-! ### Shared-flag revocation check (C2) -/

structure Port where
  network_id : String
  tenant_id : String
  device_owner : String
deriving DecidableEq, Repr

structure SubnetRow where
  network_id : String
  tenant_id : String
deriving DecidableEq, Repr

structure Network where
  id : String
  name : String
  tenant_id : String
  shared : Bool
deriving DecidableEq, Repr

inductive NetError
  | invalidSharedSetting (network : String)
deriving DecidableEq, Repr

/-- Value of `constants.DEVICE_OWNER_NETWORK_PREFIX`. -/
def deviceOwnerNetworkPfx : String := "network:"

/-- Python `str.startswith`, computed over the character lists. -/
def strStartsWith (s pre : String) : Bool := pre.data.isPrefixOf s.data

/-- Embedding of `_validate_shared_update` (db_base_plugin_v2.py:238-256):
validated only when `shared` goes from true to false; collects the tenant
ids of the network's ports whose device owner is not network-infrastructure
plus the tenant ids of all the network's subnets, and rejects when several
distinct tenants remain or the single remaining tenant is not the network
owner. -/
def validateSharedUpdate (ports : List Port) (subnets : List SubnetRow)
    (id : String) (original : Network) (updatedShared : Bool) :
    Except NetError Unit :=
  if updatedShared = original.shared ∨ updatedShared = true then .ok ()
  else
    let ps := (ports.filter (fun p => p.network_id = id)).filter
        (fun p => ¬ strStartsWith p.device_owner deviceOwnerNetworkPfx = true)
    let ss := subnets.filter (fun s => s.network_id = id)
    let tenant_ids :=
      (ps.map (fun p => p.tenant_id) ++ ss.map (fun s => s.tenant_id)).dedup
    if 1 < tenant_ids.length ∨
        (tenant_ids.length = 1 ∧ tenant_ids.head? ≠ some original.tenant_id)
    then .error (.invalidSharedSetting original.name)
    else .ok ()

/-- The set of tenants still depending on the network's shared access:
owners of non-infrastructure ports and of subnets on the network. -/
def dependentTenants (ports : List Port) (subnets : List SubnetRow)
    (id : String) : Finset String :=
  (((ports.filter (fun p => p.network_id = id)).filter
      (fun p => ¬ strStartsWith p.device_owner deviceOwnerNetworkPfx = true)).map
      (fun p => p.tenant_id) ++
    (subnets.filter (fun s => s.network_id = id)).map
      (fun s => s.tenant_id)).toFinset

/-! ### The prefix-length stringify loop of `update_subnetpool` (C8) -/

inductive FieldVal
  | num (n : Nat)
  | str (s : String)
deriving DecidableEq, Repr

/-- Python `str(...)` on a field value. -/
def strOfVal : FieldVal → String
  | .num n => toString n
  | .str s => s

/-- The returned dictionary, modelled as an association list observed only
through key lookup. -/
def FieldDict := List (String × FieldVal)

/-- Python `d[k]` (as an option). -/
def dictGet (d : FieldDict) (k : String) : Option FieldVal :=
  (d.find? (fun e => e.1 = k)).map (fun e => e.2)

/-- Python `d[k] = v`. -/
def dictSet (d : FieldDict) (k : String) (v : FieldVal) : FieldDict :=
  (k, v) :: d.filter (fun e => ¬ e.1 = k)

/-- Embedding of the final loop of `update_subnetpool`
(db_base_plugin_v2.py:1086-1087):
`for key in [...]: updated['key'] = str(updated[key])` — each iteration
writes the single literal key `"key"`. -/
def stringifyPrefixlenLoop (d : FieldDict) : FieldDict :=
  List.foldl
    (fun acc key =>
      dictSet acc "key" (.str (strOfVal ((dictGet acc key).getD (.str "")))))
    d
    ["min_prefixlen", "max_prefixlen", "default_prefixlen"]

/-! ### `update_port` IPAM failure conversion (C9) -/

/-- Exceptions the (external) pluggable IPAM backend can raise into
`update_port`. -/
inductive IpamExc
  | ipAddressAllocationNotFound
  | deferIpam
  | other (msg : String)
deriving DecidableEq, Repr

/-- Errors surfaced by `update_port`: a validation failure from
`_validate_port_for_update`, an IPAM exception surfaced as-is, or the
`oslo_db` `RetryRequest` signal telling the caller to re-run the whole
operation. -/
inductive PortOpError
  | validation (msg : String)
  | ipam (e : IpamExc)
  | retryRequest (inner : IpamExc)
deriving DecidableEq, Repr

/-- Embedding of the `try/except` around `self.ipam.update_port`
(db_base_plugin_v2.py:1236-1248): `IpAddressAllocationNotFound` is converted
into `RetryRequest`, every other exception propagates unchanged. -/
def updatePortIpamStep (r : Except IpamExc Unit) : Except PortOpError Unit :=
  match r with
  | .ok _ => .ok ()
  | .error .ipAddressAllocationNotFound =>
    .error (.retryRequest .ipAddressAllocationNotFound)
  | .error e => .error (.ipam e)

/-- Embedding of `update_port` (db_base_plugin_v2.py:1216-1250) at the level
of its failure routing: the outcome of `_validate_port_for_update` and the
outcome of the IPAM backend call are inputs; the db port dictionary is
returned on success. -/
def updatePort (va : Option String) (ir : Except IpamExc Unit)
    (dbPort : Port) : Except PortOpError Port :=
  match va with
  | some msg => .error (.validation msg)
  | none =>
    match updatePortIpamStep ir with
    | .error e => .error e
    | .ok _ => .ok dbPort

/-! ### The cidr/prefixlen exclusion guard of `create_subnet` (C10) -/

/-- A single IP address (family plus numeric value). -/
structure IpAddr where
  version : Nat
  value : Nat
deriving DecidableEq, Repr

inductive Ipv6Mode
  | slaac
  | dhcpv6Stateful
  | dhcpv6Stateless
deriving DecidableEq, Repr

structure HostRoute where
  destination : Cidr
  nexthop : IpAddr
deriving DecidableEq, Repr

inductive SubnetOpError
  | badRequest (resource msg : String)
  | invalidInput (msg : String)
  | addrFormatError
  | dnsNameServersExhausted (subnet_id : String) (quota : Nat)
  | hostRoutesExhausted (subnet_id : String) (quota : Nat)
  | gatewayIpInUse (ip : IpAddr) (port_id : String)
deriving DecidableEq, Repr

/-- The fields of a subnet creation request inspected by the guard at the
top of `create_subnet`; `none` stands for `ATTR_NOT_SPECIFIED`. -/
structure SubnetCreateReq where
  cidr : Option Cidr := none
  prefixlen : Option Nat := none
deriving DecidableEq, Repr

/-- Embedding of `create_subnet` (db_base_plugin_v2.py:683-726) around its
opening guard: `has_cidr and has_prefixlen` is rejected as a `BadRequest`
before anything else runs; the whole remainder of the function (cidr
canonicalization, subnetpool lookup, validation, allocation) is the `rest`
state transformer, which is only reached when the guard passes. -/
def createSubnet {σ β : Type} (st : σ) (s : SubnetCreateReq)
    (rest : σ → Except SubnetOpError β × σ) : Except SubnetOpError β × σ :=
  let has_cidr := s.cidr.isSome
  let has_prefixlen := s.prefixlen.isSome
  if has_cidr && has_prefixlen then
    (.error (.badRequest "subnets"
      "cidr and prefixlen must not be supplied together"), st)
  else rest st

/-! ### Subnet spec validation (C5, C6, C7)

Embedding of `_validate_subnet` and its helpers.  Addresses and prefixes are
modelled structurally (already parsed); a place where the source would feed
`ATTR_NOT_SPECIFIED` into `netaddr` surfaces as `addrFormatError`. -/

/-- The subnet spec dictionary `s` as seen by `_validate_subnet`; `none`
stands for an absent/unspecified attribute. -/
structure SubnetSpec where
  ip_version : Nat
  id : Option String := none
  cidr : Option Cidr := none
  gateway_ip : Option IpAddr := none
  enable_dhcp : Option Bool := none
  dns_nameservers : Option (List IpAddr) := none
  host_routes : Option (List HostRoute) := none
  ipv6_ra_mode : Option Ipv6Mode := none
  ipv6_address_mode : Option Ipv6Mode := none
  subnetpool_id : Option String := none
deriving DecidableEq, Repr

/-- The pre-existing subnet row (`cur_subnet`), present only on update. -/
structure CurSubnet where
  id : String
  enable_dhcp : Bool
  gateway_ip : Option IpAddr := none
  ipv6_ra_mode : Option Ipv6Mode := none
  ipv6_address_mode : Option Ipv6Mode := none
deriving DecidableEq, Repr

/-- An `IPAllocation` row as seen through the query joining
`port` and `routerport`: only allocations whose port is attached to a router
carry `port_has_routerport`. -/
structure IPAllocationRow where
  ip_address : IpAddr
  subnet_id : String
  port_id : String
  port_has_routerport : Bool
deriving DecidableEq, Repr

/-- The `cfg.CONF` values consulted by `_validate_subnet`. -/
structure ValidateCfg where
  max_dns_nameservers : Nat
  max_subnet_host_routes : Nat
deriving DecidableEq, Repr

/-- First address of a CIDR (the network address). -/
def cidrFirst (c : Cidr) : Nat := c.addr / 2 ^ hostBits c * 2 ^ hostBits c

/-- Last address of a CIDR (the broadcast address for IPv4). -/
def cidrLast (c : Cidr) : Nat := cidrFirst c + 2 ^ hostBits c - 1

/-- Whether the whole CIDR lies inside `[base, base + size)`. -/
def cidrInRange (c : Cidr) (base size : Nat) : Bool :=
  decide (base ≤ cidrFirst c) && decide (cidrLast c < base + size)

/-- Embedding of `netaddr.IPNetwork.is_multicast`: containment in `224.0.0.0/4` (IPv4) or
`ff00::/8` (IPv6). -/
def isMulticastCidr (c : Cidr) : Bool :=
  if c.version = 4 then cidrInRange c (224 * 2 ^ 24) (2 ^ 28)
  else cidrInRange c (255 * 2 ^ 120) (2 ^ 120)

/-- Embedding of `netaddr.IPNetwork.is_loopback`: containment in `127.0.0.0/8` (IPv4) or
`::1/128` (IPv6). -/
def isLoopbackCidr (c : Cidr) : Bool :=
  if c.version = 4 then cidrInRange c (127 * 2 ^ 24) (2 ^ 24)
  else cidrInRange c 1 1

/-- Value of `constants.IPV6_PD_POOL_ID`. -/
def ipv6PdPoolId : String := "prefix_delegation"

/-- Modelled from the spec: prefix delegation is active when the request
names the reserved prefix-delegation pool (implementation in external
`neutron.common.ipv6_utils.is_ipv6_pd_enabled`). -/
def isIpv6PdEnabled (s : SubnetSpec) : Bool :=
  s.subnetpool_id == some ipv6PdPoolId

/-- Modelled from the spec: stateless auto-addressing (SLAAC or
DHCPv6-stateless) is implied when either ipv6 mode requests it
(implementation in external `neutron.common.ipv6_utils.is_auto_address_subnet`). -/
def isAutoAddressSubnet (ra am : Option Ipv6Mode) : Bool :=
  (ra == some .slaac || ra == some .dhcpv6Stateless) ||
  (am == some .slaac || am == some .dhcpv6Stateless)

/-- Modelled from the spec: the gateway must not be the broadcast address of
an IPv4 cidr (implementation in external
`neutron.ipam.utils.check_gateway_invalid_in_subnet`). -/
def checkGatewayInvalidInSubnet (c : Cidr) (gw : IpAddr) : Bool :=
  (decide (cidrFirst c ≤ gw.value) && decide (gw.value ≤ cidrLast c)) &&
  (c.version == 4 && gw.value == cidrLast c)

/-- Embedding of `_validate_ip_version` (db_base_plugin_v2.py:454-463). -/
def validateIpVersionField (ip_version addrVersion : Nat) (name : String) :
    Except SubnetOpError Unit :=
  if addrVersion ≠ ip_version then
    .error (.invalidInput (name ++ " does not match the ip_version"))
  else .ok ()

/-- The message of the EUI-64 prefix-length rejection. -/
def eui64Msg : String :=
  "Invalid CIDR for IPv6 address mode. OpenStack uses the EUI-64 address format, which requires the prefix to be /64"

/-- Embedding of `_validate_eui64_applicable` (db_base_plugin_v2.py:273-284). -/
def validateEui64Applicable (s : SubnetSpec) : Except SubnetOpError Unit :=
  if isAutoAddressSubnet s.ipv6_ra_mode s.ipv6_address_mode then
    match s.cidr with
    | none => .error .addrFormatError
    | some c => if c.plen ≠ 64 then .error (.invalidInput eui64Msg) else .ok ()
  else .ok ()

/-- Embedding of `_validate_ipv6_combination` (db_base_plugin_v2.py:286-292). -/
def validateIpv6Combination (ra am : Ipv6Mode) : Except SubnetOpError Unit :=
  if ra ≠ am then
    .error (.invalidInput
      "If both attributes are set, they must be the same value")
  else .ok ()

/-- Embedding of `_validate_ipv6_dhcp` (db_base_plugin_v2.py:294-298). -/
def validateIpv6Dhcp (ra_mode_set address_mode_set enable_dhcp : Bool) :
    Except SubnetOpError Unit :=
  if (ra_mode_set || address_mode_set) && !enable_dhcp then
    .error (.invalidInput
      "ipv6_ra_mode or ipv6_address_mode cannot be set when enable_dhcp is set to False")
  else .ok ()

/-- Embedding of `_validate_ipv6_update_dhcp` (db_base_plugin_v2.py:300-318). -/
def validateIpv6UpdateDhcp (s : SubnetSpec) (cur : CurSubnet) :
    Except SubnetOpError Unit :=
  if s.enable_dhcp = some false then
    if s.ipv6_ra_mode.isSome || s.ipv6_address_mode.isSome then
      .error (.invalidInput "Cannot disable enable_dhcp with ipv6 attributes set")
    else if cur.ipv6_ra_mode.isSome || cur.ipv6_address_mode.isSome then
      .error (.invalidInput "Cannot disable enable_dhcp with ipv6 attributes set")
    else .ok ()
  else .ok ()

/-- Embedding of `_validate_ipv6_attributes` (db_base_plugin_v2.py:258-271). -/
def validateIpv6Attributes (s : SubnetSpec) (cur : Option CurSubnet) :
    Except SubnetOpError Unit :=
  match cur with
  | some cs => validateIpv6UpdateDhcp s cs
  | none =>
    match validateIpv6Dhcp s.ipv6_ra_mode.isSome s.ipv6_address_mode.isSome
        (s.enable_dhcp.getD true) with
    | .error e => .error e
    | .ok _ =>
      match s.ipv6_ra_mode, s.ipv6_address_mode with
      | some ra, some am =>
        match validateIpv6Combination ra am with
        | .error e => .error e
        | .ok _ => validateEui64Applicable s
      | some _, none => validateEui64Applicable s
      | none, some _ => validateEui64Applicable s
      | none, none => .ok ()

/-- Embedding of the DHCP-enable section of `_validate_subnet`
(db_base_plugin_v2.py:482-502): only run when DHCP is requested and was not
already enabled. -/
def validateDhcpChecks (s : SubnetSpec) (dhcp_was_enabled : Bool) :
    Except SubnetOpError Unit :=
  if s.enable_dhcp.getD false = true && !dhcp_was_enabled then
    match s.cidr with
    | none => .error .addrFormatError
    | some c =>
      if (s.ip_version = 4 ∧ 30 < c.plen) ∨ (s.ip_version = 6 ∧ 126 < c.plen)
      then
        .error (.invalidInput
          "Subnet has a prefix length that is incompatible with DHCP service enabled")
      else if isMulticastCidr c then
        .error (.invalidInput
          "Multicast IP subnet is not supported if enable_dhcp is True")
      else if isLoopbackCidr c then
        .error (.invalidInput
          "Loopback IP subnet is not supported if enable_dhcp is True")
      else .ok ()
  else .ok ()

/-- The allocation the gateway-in-use query returns: the first allocation of
the old gateway address on this subnet whose port is joined to a router. -/
def gatewayAllocQuery (allocations : List IPAllocationRow) (cs : CurSubnet) :
    Option IPAllocationRow :=
  allocations.find? (fun al =>
    al.port_has_routerport && some al.ip_address == cs.gateway_ip &&
      al.subnet_id == cs.id)

/-- Embedding of the gateway section of `_validate_subnet`
(db_base_plugin_v2.py:504-527). -/
def validateGatewaySection (s : SubnetSpec) (cur : Option CurSubnet)
    (allocations : List IPAllocationRow) : Except SubnetOpError Unit :=
  match s.gateway_ip with
  | none => .ok ()
  | some gw =>
    match validateIpVersionField s.ip_version gw.version "gateway_ip" with
    | .error e => .error e
    | .ok _ =>
      match s.cidr with
      | none => .error .addrFormatError
      | some c =>
        if checkGatewayInvalidInSubnet c gw then
          .error (.invalidInput "Gateway is not valid on subnet")
        else
          match cur with
          | none => .ok ()
          | some cs =>
            if isIpv6PdEnabled s then .ok ()
            else
              match gatewayAllocQuery allocations cs with
              | none => .ok ()
              | some al =>
                if al.port_id ≠ "" then
                  .error (.gatewayIpInUse al.ip_address al.port_id)
                else .ok ()

/-- The per-entry loop of the dns_nameservers section. -/
def validateDnsList (v : Nat) (l : List IpAddr) : Except SubnetOpError Unit :=
  match l with
  | [] => .ok ()
  | d :: rest =>
    match validateIpVersionField v d.version "dns_nameserver" with
    | .error e => .error e
    | .ok _ => validateDnsList v rest

/-- Embedding of the dns_nameservers section of `_validate_subnet`
(db_base_plugin_v2.py:529-541). -/
def validateDnsSection (cfg : ValidateCfg) (s : SubnetSpec) :
    Except SubnetOpError Unit :=
  match s.dns_nameservers with
  | none => .ok ()
  | some dns =>
    if cfg.max_dns_nameservers < dns.length then
      .error (.dnsNameServersExhausted (s.id.getD "new subnet")
        cfg.max_dns_nameservers)
    else validateDnsList s.ip_version dns

/-- Embedding of `_validate_host_route` (db_base_plugin_v2.py:223-236):
nexthop family checked before destination family. -/
def validateHostRoute (r : HostRoute) (v : Nat) : Except SubnetOpError Unit :=
  match validateIpVersionField v r.nexthop.version "nexthop" with
  | .error e => .error e
  | .ok _ => validateIpVersionField v r.destination.version "destination"

/-- The per-entry loop of the host_routes section. -/
def validateHostRouteList (v : Nat) (l : List HostRoute) :
    Except SubnetOpError Unit :=
  match l with
  | [] => .ok ()
  | r :: rest =>
    match validateHostRoute r v with
    | .error e => .error e
    | .ok _ => validateHostRouteList v rest

/-- Embedding of the host_routes section of `_validate_subnet`
(db_base_plugin_v2.py:543-550). -/
def validateHostRoutesSection (cfg : ValidateCfg) (s : SubnetSpec) :
    Except SubnetOpError Unit :=
  match s.host_routes with
  | none => .ok ()
  | some routes =>
    if cfg.max_subnet_host_routes < routes.length then
      .error (.hostRoutesExhausted (s.id.getD "new subnet")
        cfg.max_subnet_host_routes)
    else validateHostRouteList s.ip_version routes

/-- Embedding of the ip_version-specific mode section of `_validate_subnet`
(db_base_plugin_v2.py:552-562). -/
def validateModeSection (s : SubnetSpec) (cur : Option CurSubnet) :
    Except SubnetOpError Unit :=
  if s.ip_version = 4 then
    if s.ipv6_ra_mode.isSome then
      .error (.invalidInput "ipv6_ra_mode is not valid when ip_version is 4")
    else if s.ipv6_address_mode.isSome then
      .error (.invalidInput
        "ipv6_address_mode is not valid when ip_version is 4")
    else .ok ()
  else if s.ip_version = 6 then validateIpv6Attributes s cur
  else .ok ()

/-- Embedding of `dhcp_was_enabled` (db_base_plugin_v2.py:482-485): the pre-existing
subnet's flag, or false at creation. -/
def dhcpWasEnabled (cur : Option CurSubnet) : Bool :=
  match cur with
  | some cs => cs.enable_dhcp
  | none => false

/-- Exception sequencing: run the first check; on success run the second. -/
def seqE (x y : Except SubnetOpError Unit) : Except SubnetOpError Unit :=
  match x with
  | .error e => .error e
  | .ok _ => y

/-- Embedding of `_validate_subnet` (db_base_plugin_v2.py:465-562): the
sections in source order, stopping at the first failure. -/
def validateSubnet (cfg : ValidateCfg) (allocations : List IPAllocationRow)
    (s : SubnetSpec) (cur : Option CurSubnet) : Except SubnetOpError Unit :=
  seqE (match s.cidr with
        | some c => validateIpVersionField s.ip_version c.version "cidr"
        | none => .ok ())
  (seqE (validateDhcpChecks s (dhcpWasEnabled cur))
  (seqE (validateGatewaySection s cur allocations)
  (seqE (validateDnsSection cfg s)
  (seqE (validateHostRoutesSection cfg s)
        (validateModeSection s cur)))))

/-! ### Theorems -/

/-! #### Correctness of the interval algebra -/

theorem mem_insIv (x : Iv) (l : List Iv) (i : Iv) :
    i ∈ insIv x l ↔ i = x ∨ i ∈ l := by
  induction l with
  | nil => simp [insIv]
  | cons y ys ih =>
    simp only [insIv]
    split
    · simp
    · simp [ih]; tauto

theorem mem_sortIvs (l : List Iv) (i : Iv) : i ∈ sortIvs l ↔ i ∈ l := by
  induction l with
  | nil => simp [sortIvs]
  | cons x xs ih => simp [sortIvs, mem_insIv, ih]

theorem loSorted_insIv (x : Iv) (l : List Iv) (h : LoSorted l) :
    LoSorted (insIv x l) := by
  induction l with
  | nil => simp [insIv, LoSorted]
  | cons y ys ih =>
    simp only [insIv]
    split
    · exact List.Chain'.cons (by assumption) h
    · rename_i hxy
      have hys : LoSorted ys := h.tail
      have h2 := ih hys
      rw [LoSorted, List.chain'_cons']
      refine ⟨?_, h2⟩
      intro z hz
      cases ys with
      | nil =>
        simp [insIv] at hz
        subst hz
        exact le_of_not_le hxy
      | cons w ws =>
        simp only [insIv] at hz
        split at hz
        · simp at hz; subst hz; exact le_of_not_le hxy
        · simp at hz; subst hz; exact (List.chain'_cons.mp h).1

theorem loSorted_sortIvs (l : List Iv) : LoSorted (sortIvs l) := by
  induction l with
  | nil => simp [sortIvs, LoSorted]
  | cons x xs ih => exact loSorted_insIv x (sortIvs xs) ih

theorem memSet_sortIvs (l : List Iv) (a : Nat) :
    memSet (sortIvs l) a ↔ memSet l a := by
  unfold memSet
  constructor
  · rintro ⟨i, hi, h1, h2⟩; exact ⟨i, (mem_sortIvs l i).mp hi, h1, h2⟩
  · rintro ⟨i, hi, h1, h2⟩; exact ⟨i, (mem_sortIvs l i).mpr hi, h1, h2⟩

theorem memSet_cons (i : Iv) (l : List Iv) (a : Nat) :
    memSet (i :: l) a ↔ (i.1 ≤ a ∧ a < i.2) ∨ memSet l a := by
  simp [memSet]

theorem memSet_nil (a : Nat) : ¬ memSet [] a := by simp [memSet]

theorem loSorted_head_le (y : Iv) (rest : List Iv) (h : LoSorted (y :: rest)) :
    ∀ w ∈ rest, y.1 ≤ w.1 := by
  induction rest generalizing y with
  | nil => simp
  | cons z zs ih =>
    intro w hw
    have h1 : y.1 ≤ z.1 := (List.chain'_cons.mp h).1
    rcases List.mem_cons.mp hw with hw | hw
    · subst hw; exact h1
    · exact le_trans h1 (ih z (List.chain'_cons.mp h).2 w hw)

/-- Lemma: `insMerge` keeps the lower bound of the inserted interval and can only
grow its upper bound. -/
theorem insMerge_head (x : Iv) (out : List Iv) :
    ∃ b t, insMerge x out = (x.1, b) :: t ∧ x.2 ≤ b := by
  induction out generalizing x with
  | nil => exact ⟨x.2, [], rfl, le_rfl⟩
  | cons y ys ih =>
    simp only [insMerge]
    split
    · obtain ⟨b, t, he, hb⟩ := ih (x.1, max x.2 y.2)
      exact ⟨b, t, he, le_trans (le_max_left _ _) hb⟩
    · exact ⟨x.2, y :: ys, rfl, le_rfl⟩

theorem memSet_insMerge (x : Iv) (out : List Iv) (hs : LoSorted (x :: out))
    (a : Nat) :
    memSet (insMerge x out) a ↔ (x.1 ≤ a ∧ a < x.2) ∨ memSet out a := by
  induction out generalizing x with
  | nil => simp [insMerge, memSet]
  | cons y ys ih =>
    simp only [insMerge]
    split
    · rename_i hc
      have hxy : x.1 ≤ y.1 := (List.chain'_cons.mp hs).1
      have hs2 : LoSorted ((x.1, max x.2 y.2) :: ys) := by
        rw [LoSorted, List.chain'_cons']
        refine ⟨?_, ((List.chain'_cons.mp hs).2).tail⟩
        intro z hz
        cases ys with
        | nil => simp at hz
        | cons w ws =>
          simp at hz
          subst hz
          have h2 : y.1 ≤ w.1 := (List.chain'_cons.mp (List.chain'_cons.mp hs).2).1
          exact le_trans hxy h2
      rw [ih (x.1, max x.2 y.2) hs2, memSet_cons]
      simp only
      constructor
      · rintro (⟨h1, h2⟩ | hr)
        · by_cases hx : a < x.2
          · exact Or.inl ⟨h1, hx⟩
          · exact Or.inr (Or.inl ⟨by omega, by omega⟩)
        · exact Or.inr (Or.inr hr)
      · rintro (⟨h1, h2⟩ | ⟨h1, h2⟩ | hr)
        · exact Or.inl ⟨h1, by omega⟩
        · exact Or.inl ⟨by omega, by omega⟩
        · exact Or.inr hr
    · rw [memSet_cons, memSet_cons]

theorem allPos_insMerge (x : Iv) (out : List Iv) (h : AllPos (x :: out)) :
    AllPos (insMerge x out) := by
  induction out generalizing x with
  | nil => simpa [insMerge] using h
  | cons y ys ih =>
    simp only [insMerge]
    split
    · apply ih
      intro i hi
      rcases List.mem_cons.mp hi with hi | hi
      · subst hi
        have hx : x.1 < x.2 := h x (by simp)
        simp only
        omega
      · exact h i (by simp [hi])
    · exact h

theorem loSorted_insMerge (x : Iv) (out : List Iv) (hs : LoSorted (x :: out)) :
    LoSorted (insMerge x out) := by
  induction out generalizing x with
  | nil => simp [insMerge, LoSorted]
  | cons y ys ih =>
    simp only [insMerge]
    split
    · rename_i hc
      apply ih
      rw [LoSorted, List.chain'_cons']
      refine ⟨?_, ((List.chain'_cons.mp hs).2).tail⟩
      intro z hz
      cases ys with
      | nil => simp at hz
      | cons w ws =>
        simp at hz
        subst hz
        have hxy : x.1 ≤ y.1 := (List.chain'_cons.mp hs).1
        have h2 : y.1 ≤ w.1 := (List.chain'_cons.mp (List.chain'_cons.mp hs).2).1
        exact le_trans hxy h2
    · exact hs

theorem sep_insMerge (x : Iv) (out : List Iv) (hsep : SepIvs out)
    (hs : LoSorted (x :: out)) : SepIvs (insMerge x out) := by
  induction out generalizing x with
  | nil => simp [insMerge, SepIvs]
  | cons y ys ih =>
    simp only [insMerge]
    split
    · rename_i hc
      refine ih (x.1, max x.2 y.2) ((List.pairwise_cons.mp hsep).2) ?_
      rw [LoSorted, List.chain'_cons']
      refine ⟨?_, ((List.chain'_cons.mp hs).2).tail⟩
      intro z hz
      cases ys with
      | nil => simp at hz
      | cons w ws =>
        simp at hz
        subst hz
        have hxy : x.1 ≤ y.1 := (List.chain'_cons.mp hs).1
        have h2 : y.1 ≤ w.1 := (List.chain'_cons.mp (List.chain'_cons.mp hs).2).1
        exact le_trans hxy h2
    · rename_i hc
      rw [SepIvs, List.pairwise_cons]
      refine ⟨?_, hsep⟩
      intro z hz
      rcases List.mem_cons.mp hz with hz | hz
      · subst hz; omega
      · have := loSorted_head_le y ys hs.tail z hz
        omega

theorem mergeSep_cons (x : Iv) (l : List Iv) :
    mergeSep (x :: l) = insMerge x (mergeSep l) := rfl

theorem loSorted_mergeSep (l : List Iv) (hs : LoSorted l) :
    LoSorted (mergeSep l) := by
  induction l with
  | nil => simp [mergeSep, LoSorted]
  | cons x xs ih =>
    rw [mergeSep_cons]
    apply loSorted_insMerge
    rw [LoSorted, List.chain'_cons']
    refine ⟨?_, ih hs.tail⟩
    intro z hz
    cases xs with
    | nil => simp [mergeSep] at hz
    | cons y ys =>
      rw [mergeSep_cons] at hz
      obtain ⟨b, t, he, _⟩ := insMerge_head y (mergeSep ys)
      rw [he] at hz
      simp at hz
      subst hz
      exact (List.chain'_cons.mp hs).1

theorem loSorted_cons_mergeSep (x : Iv) (l : List Iv) (hs : LoSorted (x :: l)) :
    LoSorted (x :: mergeSep l) := by
  rw [LoSorted, List.chain'_cons']
  refine ⟨?_, loSorted_mergeSep l hs.tail⟩
  intro z hz
  cases l with
  | nil => simp [mergeSep] at hz
  | cons y ys =>
    rw [mergeSep_cons] at hz
    obtain ⟨b, t, he, _⟩ := insMerge_head y (mergeSep ys)
    rw [he] at hz
    simp at hz
    subst hz
    exact (List.chain'_cons.mp hs).1

theorem memSet_mergeSep (l : List Iv) (hs : LoSorted l) (a : Nat) :
    memSet (mergeSep l) a ↔ memSet l a := by
  induction l with
  | nil => simp [mergeSep]
  | cons x xs ih =>
    rw [mergeSep_cons,
      memSet_insMerge x (mergeSep xs) (loSorted_cons_mergeSep x xs hs) a,
      memSet_cons, ih hs.tail]

theorem allPos_mergeSep (l : List Iv) (h : AllPos l) : AllPos (mergeSep l) := by
  induction l with
  | nil => simpa [mergeSep] using h
  | cons x xs ih =>
    rw [mergeSep_cons]
    apply allPos_insMerge
    intro i hi
    rcases List.mem_cons.mp hi with hi | hi
    · subst hi; exact h i (by simp)
    · exact ih (fun j hj => h j (by simp [hj])) i hi

theorem sep_mergeSep (l : List Iv) (hs : LoSorted l) : SepIvs (mergeSep l) := by
  induction l with
  | nil => simp [mergeSep, SepIvs]
  | cons x xs ih =>
    rw [mergeSep_cons]
    exact sep_insMerge x (mergeSep xs) (ih hs.tail)
      (loSorted_cons_mergeSep x xs hs)

/-- Elements of a pairwise list are related one way or the other. -/
theorem pairwise_total {α : Type} (R : α → α → Prop) (l : List α)
    (h : List.Pairwise R l) (a b : α) (ha : a ∈ l) (hb : b ∈ l) :
    a = b ∨ R a b ∨ R b a := by
  induction l with
  | nil => cases ha
  | cons x xs ih =>
    rcases List.pairwise_cons.mp h with ⟨hx, hxs⟩
    rcases List.mem_cons.mp ha with ha2 | ha2 <;> rcases List.mem_cons.mp hb with hb2 | hb2
    · subst ha2; subst hb2; exact Or.inl rfl
    · subst ha2; exact Or.inr (Or.inl (hx b hb2))
    · subst hb2; exact Or.inr (Or.inr (hx a ha2))
    · exact ih hxs ha2 hb2

/-- A nonempty interval contained in the union of a separated interval list is
contained in a single one of its intervals. -/
theorem subset_covered (B : List Iv) (hB : SepIvs B)
    (s e : Nat) (hse : s < e)
    (hsub : ∀ a, s ≤ a → a < e → memSet B a) :
    ∃ j ∈ B, j.1 ≤ s ∧ e ≤ j.2 := by
  obtain ⟨j, hj, hj1, hj2⟩ := hsub s le_rfl hse
  refine ⟨j, hj, hj1, ?_⟩
  by_contra hlt
  push_neg at hlt
  obtain ⟨k, hk, hk1, hk2⟩ := hsub j.2 (le_of_lt hj2) hlt
  rcases pairwise_total _ B hB j k hj hk with he | hr | hr
  · subst he; omega
  · omega
  · omega

theorem memSet_normalizeIvs (l : List Iv) (a : Nat) :
    memSet (normalizeIvs l) a ↔ memSet l a :=
  (memSet_mergeSep (sortIvs l) (loSorted_sortIvs l) a).trans (memSet_sortIvs l a)

theorem allPos_normalizeIvs (l : List Iv) (h : AllPos l) :
    AllPos (normalizeIvs l) :=
  allPos_mergeSep (sortIvs l) (fun i hi => h i ((mem_sortIvs l i).mp hi))

theorem sep_normalizeIvs (l : List Iv) : SepIvs (normalizeIvs l) :=
  sep_mergeSep (sortIvs l) (loSorted_sortIvs l)

/-- Correctness of the `issubset` embedding: it decides exactly the semantic
set inclusion of the unions of the two interval lists. -/
theorem issubset_correct (A B : List Iv) (hA : AllPos A) :
    issubset A B = true ↔ ∀ a, memSet A a → memSet B a := by
  constructor
  · intro h a ha
    rw [← memSet_normalizeIvs] at ha
    obtain ⟨i, hi, h1, h2⟩ := ha
    have hcov := List.all_eq_true.mp h i hi
    obtain ⟨j, hj, hj1⟩ := List.any_eq_true.mp hcov
    simp only [Bool.and_eq_true, decide_eq_true_eq] at hj1
    rw [← memSet_normalizeIvs]
    exact ⟨j, hj, by omega, by omega⟩
  · intro h
    apply List.all_eq_true.mpr
    intro i hi
    have hpos : i.1 < i.2 := allPos_normalizeIvs A hA i hi
    have hsub : ∀ a, i.1 ≤ a → a < i.2 → memSet (normalizeIvs B) a := by
      intro a h1 h2
      rw [memSet_normalizeIvs]
      exact h a ((memSet_normalizeIvs A a).mp ⟨i, hi, h1, h2⟩)
    obtain ⟨j, hj, hj1, hj2⟩ :=
      subset_covered (normalizeIvs B) (sep_normalizeIvs B) i.1 i.2 hpos hsub
    apply List.any_eq_true.mpr
    exact ⟨j, hj, by simp [hj1, hj2]⟩

/-- Correctness of the `intersectsb` embedding: it decides exactly whether
some address lies in both unions. -/
theorem intersectsb_correct (A B : List Iv) :
    intersectsb A B = true ↔ ∃ a, memSet A a ∧ memSet B a := by
  constructor
  · intro h
    obtain ⟨i, hi, h1⟩ := List.any_eq_true.mp h
    obtain ⟨j, hj, h2⟩ := List.any_eq_true.mp h1
    rw [decide_eq_true_eq] at h2
    refine ⟨max i.1 j.1, ⟨i, hi, ?_, ?_⟩, ⟨j, hj, ?_, ?_⟩⟩ <;> omega
  · rintro ⟨a, ⟨i, hi, h1, h2⟩, ⟨j, hj, h3, h4⟩⟩
    apply List.any_eq_true.mpr
    refine ⟨i, hi, ?_⟩
    apply List.any_eq_true.mpr
    refine ⟨j, hj, ?_⟩
    rw [decide_eq_true_eq]
    omega

theorem allPos_ipset (ps : List Cidr) : AllPos (ipset ps) := by
  intro i hi
  simp only [ipset, List.mem_map] at hi
  obtain ⟨c, _, hc⟩ := hi
  subst hc
  simp only [encodeCidr]
  have : 0 < 2 ^ hostBits c := Nat.pos_pow_of_pos _ (by norm_num)
  omega

theorem floorPow2_pos (m : Nat) : 1 ≤ floorPow2 m := by
  induction m using floorPow2.induct with
  | case1 => rename_i m h; rw [floorPow2]; simp [h]
  | case2 => rename_i m h ih; rw [floorPow2]; simp only [if_neg h]; omega

theorem floorPow2_le (m : Nat) (h : 1 ≤ m) : floorPow2 m ≤ m := by
  induction m using floorPow2.induct with
  | case1 m h2 => rw [floorPow2]; simp [h2]; omega
  | case2 m h2 ih =>
    rw [floorPow2]
    simp only [if_neg h2]
    have := ih (by omega)
    omega

theorem largestPow2Dvd_pos (n : Nat) : 1 ≤ largestPow2Dvd n := by
  induction n using largestPow2Dvd.induct with
  | case1 => rw [largestPow2Dvd]; simp
  | case2 => rename_i n h h2 ih; rw [largestPow2Dvd]; simp only [if_neg h, if_pos h2]; omega
  | case3 => rename_i n h h2; rw [largestPow2Dvd]; simp [h, h2]

theorem blockSize_pos (lo hi : Nat) : 1 ≤ blockSize lo hi :=
  Nat.le_max_left 1 _

theorem blockSize_le (lo hi : Nat) (h : lo < hi) : blockSize lo hi ≤ hi - lo := by
  rw [blockSize]
  have h1 := floorPow2_le (hi - lo) (by omega)
  have h2 := floorPow2_pos (hi - lo)
  split <;> omega

theorem memSet_cidrBlocks (lo hi a : Nat) :
    memSet (cidrBlocks lo hi) a ↔ lo ≤ a ∧ a < hi := by
  induction lo, hi using cidrBlocks.induct with
  | case1 lo hi h ih =>
    rw [cidrBlocks]
    simp only [dif_pos h]
    rw [memSet_cons, ih]
    have h1 := blockSize_pos lo hi
    have h2 := blockSize_le lo hi h
    simp only
    omega
  | case2 lo hi h =>
    rw [cidrBlocks]
    simp only [dif_neg h]
    simp [memSet]
    omega

/-- Compaction preserves the set of covered addresses. -/
theorem memSet_compactIvs (X : List Iv) (a : Nat) :
    memSet (compactIvs X) a ↔ memSet X a := by
  have h1 : memSet (compactIvs X) a ↔ memSet (normalizeIvs X) a := by
    simp only [compactIvs, memSet, List.mem_flatten, List.mem_map]
    constructor
    · rintro ⟨i, ⟨l, ⟨j, hj, hl⟩, hil⟩, h1, h2⟩
      subst hl
      have := (memSet_cidrBlocks j.1 j.2 a).mp ⟨i, hil, h1, h2⟩
      exact ⟨j, hj, this.1, this.2⟩
    · rintro ⟨j, hj, h1, h2⟩
      obtain ⟨i, hil, hi1, hi2⟩ := (memSet_cidrBlocks j.1 j.2 a).mpr ⟨h1, h2⟩
      exact ⟨i, ⟨cidrBlocks j.1 j.2, ⟨j, hj, rfl⟩, hil⟩, hi1, hi2⟩
  exact h1.trans (memSet_normalizeIvs X a)

/-! ### Helper characterizations for the subnetpool operations -/

theorem scanScopeConflicts_ok_iff (pools : List SubnetPool)
    (spId : Option String) (newSet : List Iv) :
    scanScopeConflicts pools spId newSet = .ok () ↔
      ∀ sp ∈ pools, some sp.id ≠ spId →
        intersectsb (ipset sp.prefixes) newSet = false := by
  induction pools with
  | nil => simp [scanScopeConflicts]
  | cons sp rest ih =>
    simp only [scanScopeConflicts]
    split
    · rename_i hid
      rw [ih]
      constructor
      · intro h q hq hq2
        rcases List.mem_cons.mp hq with hq | hq
        · subst hq; exact absurd hid hq2
        · exact h q hq hq2
      · intro h q hq hq2
        exact h q (by simp [hq]) hq2
    · rename_i hid
      split
      · rename_i hint
        constructor
        · intro h; cases h
        · intro h
          have := h sp (by simp) hid
          rw [hint] at this
          cases this
      · rename_i hint
        rw [ih]
        constructor
        · intro h q hq hq2
          rcases List.mem_cons.mp hq with hq | hq
          · subst hq; exact Bool.eq_false_iff.mpr hint
          · exact h q hq hq2
        · intro h q hq hq2
          exact h q (by simp [hq]) hq2

theorem scanScopeConflicts_outcomes (pools : List SubnetPool)
    (spId : Option String) (newSet : List Iv) :
    scanScopeConflicts pools spId newSet = .ok () ∨
    scanScopeConflicts pools spId newSet = .error .addressScopePrefixConflict := by
  induction pools with
  | nil => simp [scanScopeConflicts]
  | cons sp rest ih =>
    simp only [scanScopeConflicts]
    split
    · exact ih
    · split
      · exact Or.inr rfl
      · exact ih

theorem checkDefault_ok_iff (st : PoolState) (v : Nat) :
    checkDefaultSubnetpoolExists st v = .ok () ↔
      ∀ p ∈ st.pools, p.is_default = true → p.ip_version ≠ v := by
  simp only [checkDefaultSubnetpoolExists, getDefaultSubnetpool]
  cases hf : (st.pools.filter (fun p => p.is_default && p.ip_version == v)).head? with
  | some p =>
    simp only
    constructor
    · intro h; cases h
    · intro h
      have hp := List.mem_of_mem_head? hf
      have := List.of_mem_filter hp
      simp at this
      exact absurd this.2 (h p (List.mem_of_mem_filter hp) this.1)
  | none =>
    simp only
    constructor
    · intro _ p hp hd
      by_contra hv
      have : p ∈ st.pools.filter (fun p => p.is_default && p.ip_version == v) := by
        apply List.mem_filter.mpr
        exact ⟨hp, by simp [hd, hv]⟩
      rw [List.head?_eq_none_iff] at hf
      rw [hf] at this
      cases this
    · intro _; trivial

/-! ### Claim theorems for the subnetpool prefix update -/

/-- C1: a subnetpool update supplying new prefixes fails with the
prefix-update conflict error exactly when the address set of the existing
prefixes is not a subset of the address set of the new prefixes; when the new
set is a (possibly strict) superset the update succeeds and the stored
prefixes are the compacted form of the new set. -/
theorem subnetpool_update_prefix_monotonic
    (orig : SubnetPool) (np : SubnetPoolUpdate) (nps : List Cidr)
    (hp : np.prefixes = some nps) :
    ((¬ ∀ a, memSet (ipset orig.prefixes) a → memSet (ipset nps) a) →
      updateSubnetpoolDict orig np =
        .error (.illegalSubnetPoolPrefixUpdate
          "Existing prefixes must be a subset of the new prefixes"))
    ∧ ((∀ a, memSet (ipset orig.prefixes) a → memSet (ipset nps) a) →
      ∃ u, updateSubnetpoolDict orig np = .ok u ∧
        u.prefixes = compactSet (ipset nps) ∧
        (∀ a, memSet (compactIvs (ipset nps)) a ↔ memSet (ipset nps) a)) := by
  constructor
  · intro h
    have hb : ¬ issubset (ipset orig.prefixes) (ipset nps) = true := by
      intro hc
      exact h ((issubset_correct _ _ (allPos_ipset _)).mp hc)
    simp only [updateSubnetpoolDict, hp]
    rw [if_neg hb]
  · intro h
    have hb : issubset (ipset orig.prefixes) (ipset nps) = true :=
      (issubset_correct _ _ (allPos_ipset _)).mpr h
    simp only [updateSubnetpoolDict, hp]
    rw [if_pos hb]
    exact ⟨_, rfl, rfl, fun a => memSet_compactIvs (ipset nps) a⟩

/-- Witness for C1 at a concrete input: growing `10.0.0.0/16` to
`10.0.0.0/8` is accepted and stores the compacted new set. -/
theorem subnetpool_update_prefix_monotonic_witness :
    (∀ a, memSet (ipset [Cidr.mk 4 167772160 16]) a →
      memSet (ipset [Cidr.mk 4 167772160 8]) a) ∧
    ∃ u, updateSubnetpoolDict
        ⟨"pool-a", "t1", 4, [Cidr.mk 4 167772160 16], 8, 32, 24, false, false,
          none⟩
        ⟨some [Cidr.mk 4 167772160 8], none, none, none, none, none, none⟩ =
        .ok u ∧
      u.prefixes = compactSet (ipset [Cidr.mk 4 167772160 8]) ∧
      (∀ a, memSet (compactIvs (ipset [Cidr.mk 4 167772160 8])) a ↔
        memSet (ipset [Cidr.mk 4 167772160 8]) a) := by
  have hsub : ∀ a, memSet (ipset [Cidr.mk 4 167772160 16]) a →
      memSet (ipset [Cidr.mk 4 167772160 8]) a :=
    (issubset_correct _ _ (allPos_ipset _)).mp (by decide)
  exact ⟨hsub,
    (subnetpool_update_prefix_monotonic
      ⟨"pool-a", "t1", 4, [Cidr.mk 4 167772160 16], 8, 32, 24, false, false,
        none⟩
      ⟨some [Cidr.mk 4 167772160 8], none, none, none, none, none, none⟩
      [Cidr.mk 4 167772160 8] rfl).2 hsub⟩

theorem intersectsb_false_iff (A B : List Iv) :
    intersectsb A B = false ↔ ¬ ∃ a, memSet A a ∧ memSet B a := by
  rw [← intersectsb_correct]
  cases intersectsb A B <;> simp

theorem validateAddressScopeId_ok_scan (ctx : PoolCtx) (st : PoolState)
    (asid : String) (spId : Option String) (nps : List Cidr) (v : Nat)
    (h : validateAddressScopeId ctx st (some asid) spId nps v = .ok ()) :
    ∀ sp ∈ st.pools, sp.address_scope_id = some asid → some sp.id ≠ spId →
      ¬ ∃ a, memSet (ipset sp.prefixes) a ∧ memSet (ipset nps) a := by
  simp only [validateAddressScopeId] at h
  split at h
  · cases h
  · split at h
    · cases h
    · have hall := (scanScopeConflicts_ok_iff _ _ _).mp h
      intro sp hsp hscope hid
      have hmem : sp ∈ st.pools.filter
          (fun sp => sp.address_scope_id = some asid) :=
        List.mem_filter.mpr ⟨hsp, by simp [hscope]⟩
      have hfalse := hall sp hmem hid
      exact (intersectsb_false_iff _ _).mp hfalse

theorem createSubnetpool_ok_inv (ctx : PoolCtx) (st : PoolState)
    (sp : SubnetPool) (out : SubnetPool × PoolState)
    (h : createSubnetpool ctx st sp = .ok out) :
    validateAddressScopeId ctx st sp.address_scope_id none sp.prefixes
        sp.ip_version = .ok () ∧
    (sp.is_default = true → checkDefaultSubnetpoolExists st sp.ip_version = .ok ()) ∧
    out = (sp, ⟨st.pools ++ [sp]⟩) := by
  unfold createSubnetpool at h
  split at h
  · cases h
  · rename_i u hchk
    split at h
    · cases h
    · rename_i u2 hval
      refine ⟨by rw [hval], ?_, by cases h; rfl⟩
      intro hdef
      rw [hdef] at hchk
      simp at hchk
      rw [hchk]

theorem updateSubnetpoolDict_id (orig : SubnetPool) (np : SubnetPoolUpdate)
    (u : SubnetPool) (h : updateSubnetpoolDict orig np = .ok u) :
    u.id = orig.id := by
  unfold updateSubnetpoolDict at h
  split at h
  · split at h
    · cases h; rfl
    · cases h
  · cases h; rfl

theorem updateSubnetpoolDict_ip_version (orig : SubnetPool)
    (np : SubnetPoolUpdate) (u : SubnetPool)
    (h : updateSubnetpoolDict orig np = .ok u) :
    u.ip_version = orig.ip_version := by
  unfold updateSubnetpoolDict at h
  split at h
  · split at h
    · cases h; rfl
    · cases h
  · cases h; rfl

theorem updateSubnetpoolDict_is_default (orig : SubnetPool)
    (np : SubnetPoolUpdate) (u : SubnetPool)
    (h : updateSubnetpoolDict orig np = .ok u) :
    u.is_default = np.is_default.getD orig.is_default := by
  unfold updateSubnetpoolDict at h
  split at h
  · split at h
    · cases h; rfl
    · cases h
  · cases h; rfl

theorem updateSubnetpool_ok_inv (ctx : PoolCtx) (st : PoolState) (id : String)
    (np : SubnetPoolUpdate) (u : SubnetPool) (st2 : PoolState)
    (h : updateSubnetpool ctx st id np = .ok (u, st2)) :
    ∃ orig, st.pools.find? (fun p => p.id = id) = some orig ∧
      updateSubnetpoolDict orig np = .ok u ∧
      ((u.is_default && !orig.is_default) = true →
        checkDefaultSubnetpoolExists st u.ip_version = .ok ()) ∧
      validateAddressScopeId ctx st u.address_scope_id (some id) u.prefixes
        u.ip_version = .ok () ∧
      st2 = ⟨st.pools.map (fun p => if p.id = id then u else p)⟩ := by
  unfold updateSubnetpool at h
  split at h
  · cases h
  · rename_i orig hfind
    refine ⟨orig, hfind, ?_⟩
    split at h
    · cases h
    · rename_i updated hdict
      split at h
      · cases h
      · rename_i u1 hchk
        split at h
        · cases h
        · rename_i u2 hallow
          split at h
          · cases h
          · rename_i u3 hval
            cases h
            refine ⟨hdict, ?_, by rw [hval], rfl⟩
            intro hcond
            rw [hcond] at hchk
            simp at hchk
            rw [hchk]

theorem scopeDisjoint_create (ctx : PoolCtx) (st : PoolState)
    (sp : SubnetPool) (out : SubnetPool × PoolState) (asid : String)
    (hinv : ScopeDisjoint st asid)
    (hok : createSubnetpool ctx st sp = .ok out) :
    ScopeDisjoint out.2 asid := by
  obtain ⟨hval, _, hout⟩ := createSubnetpool_ok_inv ctx st sp out hok
  subst hout
  intro p hp q hq hps hqs hid
  simp only at hp hq
  rcases List.mem_append.mp hp with hp2 | hp2 <;>
    rcases List.mem_append.mp hq with hq2 | hq2
  · exact hinv p hp2 q hq2 hps hqs hid
  · simp at hq2
    subst hq2
    rw [hqs] at hval
    rintro ⟨a, hpa, hqa⟩
    exact validateAddressScopeId_ok_scan ctx st asid none _ _ hval
      p hp2 hps (by simp) ⟨a, hpa, hqa⟩
  · simp at hp2
    subst hp2
    rw [hps] at hval
    rintro ⟨a, hpa, hqa⟩
    exact validateAddressScopeId_ok_scan ctx st asid none _ _ hval
      q hq2 hqs (by simp) ⟨a, hqa, hpa⟩
  · simp at hp2 hq2
    subst hp2; subst hq2
    exact absurd rfl hid

theorem scopeDisjoint_update (ctx : PoolCtx) (st : PoolState) (id : String)
    (np : SubnetPoolUpdate) (u : SubnetPool) (st2 : PoolState) (asid : String)
    (hinv : ScopeDisjoint st asid)
    (hok : updateSubnetpool ctx st id np = .ok (u, st2)) :
    ScopeDisjoint st2 asid := by
  obtain ⟨orig, hfind, hdict, _, hval, hst2⟩ :=
    updateSubnetpool_ok_inv ctx st id np u st2 hok
  subst hst2
  intro p hp q hq hps hqs hid
  simp only [List.mem_map] at hp hq
  obtain ⟨p0, hp0, rfl⟩ := hp
  obtain ⟨q0, hq0, rfl⟩ := hq
  by_cases hp1 : p0.id = id <;> by_cases hq1 : q0.id = id
  · rw [if_pos hp1, if_pos hq1] at hid
    exact absurd rfl hid
  · rw [if_pos hp1] at hps ⊢
    rw [if_neg hq1] at hqs ⊢
    rw [hps] at hval
    rintro ⟨a, hpa, hqa⟩
    exact validateAddressScopeId_ok_scan ctx st asid (some id) _ _ hval
      q0 hq0 hqs (by simp [hq1]) ⟨a, hqa, hpa⟩
  · rw [if_neg hp1] at hps ⊢
    rw [if_pos hq1] at hqs ⊢
    rw [hqs] at hval
    rintro ⟨a, hpa, hqa⟩
    exact validateAddressScopeId_ok_scan ctx st asid (some id) _ _ hval
      p0 hp0 hps (by simp [hp1]) ⟨a, hpa, hqa⟩
  · rw [if_neg hp1] at hps hid ⊢
    rw [if_neg hq1] at hqs hid ⊢
    exact hinv p0 hp0 q0 hq0 hps hqs hid

/-- C3 (amended): when the caller may use the scope and the families
match, associating prefixes to an address scope is rejected with the
(argument-free) `AddressScopePrefixConflict` error exactly when they
intersect the prefixes of some other pool already bound to the scope; as a
consequence both `create_subnetpool` and `update_subnetpool` preserve the
pairwise disjointness of the prefix sets of the pools of each scope. -/
theorem address_scope_prefix_conflict :
    (∀ (ctx : PoolCtx) (st : PoolState) (asid : String) (spId : Option String)
        (nps : List Cidr) (v : Nat),
      asid ∈ ctx.ownedScopes → v = scopeIpVersion ctx asid →
      (validateAddressScopeId ctx st (some asid) spId nps v =
          .error .addressScopePrefixConflict ↔
        ∃ sp ∈ st.pools, sp.address_scope_id = some asid ∧ some sp.id ≠ spId ∧
          ∃ a, memSet (ipset sp.prefixes) a ∧ memSet (ipset nps) a))
    ∧ (∀ (ctx : PoolCtx) (st : PoolState) (sp : SubnetPool)
        (out : SubnetPool × PoolState) (asid : String),
        ScopeDisjoint st asid → createSubnetpool ctx st sp = .ok out →
        ScopeDisjoint out.2 asid)
    ∧ (∀ (ctx : PoolCtx) (st : PoolState) (id : String)
        (np : SubnetPoolUpdate) (u : SubnetPool) (st2 : PoolState)
        (asid : String),
        ScopeDisjoint st asid → updateSubnetpool ctx st id np = .ok (u, st2) →
        ScopeDisjoint st2 asid) := by
  refine ⟨?_, scopeDisjoint_create, scopeDisjoint_update⟩
  intro ctx st asid spId nps v hown hver
  simp only [validateAddressScopeId]
  rw [if_neg (by simp [hown]), if_neg (by simp [hver])]
  constructor
  · intro herr
    have hok : ¬ scanScopeConflicts
        (st.pools.filter (fun sp => sp.address_scope_id = some asid)) spId
        (ipset nps) = .ok () := by
      intro hc; rw [hc] at herr; cases herr
    have hnall : ¬ ∀ sp ∈ st.pools.filter
        (fun sp => sp.address_scope_id = some asid),
        some sp.id ≠ spId → intersectsb (ipset sp.prefixes) (ipset nps) = false :=
      fun hall => hok ((scanScopeConflicts_ok_iff _ _ _).mpr hall)
    push_neg at hnall
    obtain ⟨sp, hsp, hid, hint⟩ := hnall
    have hmem := List.mem_filter.mp hsp
    refine ⟨sp, hmem.1, by simpa using hmem.2, hid, ?_⟩
    rw [← intersectsb_correct]
    cases hb : intersectsb (ipset sp.prefixes) (ipset nps)
    · exact absurd hb hint
    · rfl
  · rintro ⟨sp, hsp, hscope, hid, hex⟩
    rcases scanScopeConflicts_outcomes
        (st.pools.filter (fun sp => sp.address_scope_id = some asid)) spId
        (ipset nps) with hc | hc
    · exfalso
      have := (scanScopeConflicts_ok_iff _ _ _).mp hc sp
        (List.mem_filter.mpr ⟨hsp, by simp [hscope]⟩) hid
      rw [(intersectsb_correct _ _).mpr hex] at this
      cases this
    · rw [hc]

/-- Counterexample to C3 as stated: the conflict rejection does occur, but
the raised `AddressScopePrefixConflict` carries no arguments, so it does not
name the two conflicting pools. -/
theorem address_scope_prefix_conflict_counterexample :
    createSubnetpool ⟨["s1"], [("s1", 4)]⟩
      ⟨[⟨"pool-b", "t1", 4, [Cidr.mk 4 167772160 16], 8, 32, 24, false, false,
        some "s1"⟩]⟩
      ⟨"pool-a", "t1", 4, [Cidr.mk 4 167772160 8], 8, 32, 24, false, false,
        some "s1"⟩ = .error .addressScopePrefixConflict ∧
    poolErrArgs .addressScopePrefixConflict = [] := by
  constructor
  · rfl
  · rfl

/-- Witness for the amended C3 theorem: the conflict characterization applied
at the concrete two-pool scenario. -/
theorem address_scope_prefix_conflict_witness :
    validateAddressScopeId ⟨["s1"], [("s1", 4)]⟩
      ⟨[⟨"pool-b", "t1", 4, [Cidr.mk 4 167772160 16], 8, 32, 24, false, false,
        some "s1"⟩]⟩
      (some "s1") none [Cidr.mk 4 167772160 8] 4 =
      .error .addressScopePrefixConflict := by
  refine (address_scope_prefix_conflict.1 ⟨["s1"], [("s1", 4)]⟩
    ⟨[⟨"pool-b", "t1", 4, [Cidr.mk 4 167772160 16], 8, 32, 24, false, false,
      some "s1"⟩]⟩
    "s1" none [Cidr.mk 4 167772160 8] 4 (by decide) (by decide)).mpr ?_
  refine ⟨⟨"pool-b", "t1", 4, [Cidr.mk 4 167772160 16], 8, 32, 24, false,
    false, some "s1"⟩, by simp, rfl, by simp, 4 * 2 ^ 128 + 167772160, ?_, ?_⟩
  · decide
  · decide

theorem checkDefault_cases (st : PoolState) (v : Nat) :
    checkDefaultSubnetpoolExists st v = .ok () ∨
    checkDefaultSubnetpoolExists st v = .error (.invalidInput defaultExistsMsg) := by
  unfold checkDefaultSubnetpoolExists
  cases getDefaultSubnetpool st v <;> simp

theorem checkDefault_error_iff (st : PoolState) (v : Nat) :
    checkDefaultSubnetpoolExists st v = .error (.invalidInput defaultExistsMsg) ↔
      ∃ p ∈ st.pools, p.is_default = true ∧ p.ip_version = v := by
  rcases checkDefault_cases st v with h | h
  · rw [h]
    have hall := (checkDefault_ok_iff st v).mp h
    constructor
    · intro hc; cases hc
    · rintro ⟨p, hp, hd, hv⟩
      exact absurd hv (hall p hp hd)
  · rw [h]
    constructor
    · intro _
      have hno : ¬ checkDefaultSubnetpoolExists st v = .ok () := by
        rw [h]; intro hc; cases hc
      have hnall : ¬ ∀ p ∈ st.pools, p.is_default = true → p.ip_version ≠ v :=
        fun hall => hno ((checkDefault_ok_iff st v).mpr hall)
      push_neg at hnall
      obtain ⟨p, hp, hd, hv⟩ := hnall
      exact ⟨p, hp, hd, hv⟩
    · intro _; rfl

theorem checkSubnetpoolUpdateAllowed_not_invalid (ctx : PoolCtx)
    (i a m : String) :
    checkSubnetpoolUpdateAllowed ctx i a ≠ .error (.invalidInput m) := by
  unfold checkSubnetpoolUpdateAllowed
  split <;> intro hc <;> cases hc

theorem validateAddressScopeId_not_invalid (ctx : PoolCtx) (st : PoolState)
    (aso : Option String) (spId : Option String) (nps : List Cidr) (v : Nat)
    (m : String) :
    validateAddressScopeId ctx st aso spId nps v ≠ .error (.invalidInput m) := by
  cases aso with
  | none => simp [validateAddressScopeId]
  | some asid =>
    simp only [validateAddressScopeId]
    split
    · intro hc; cases hc
    · split
      · intro hc; cases hc
      · rcases scanScopeConflicts_outcomes
          (st.pools.filter (fun sp => sp.address_scope_id = some asid)) spId
          (ipset nps) with hc | hc <;> rw [hc] <;> intro hx <;> cases hx

/-- On create, with `is_default` requested, the duplicate-default rejection
occurs exactly when a default pool of the same family already exists. -/
theorem createSubnetpool_default_iff (ctx : PoolCtx) (st : PoolState)
    (sp : SubnetPool) (hdef : sp.is_default = true) :
    createSubnetpool ctx st sp = .error (.invalidInput defaultExistsMsg) ↔
      ∃ p ∈ st.pools, p.is_default = true ∧ p.ip_version = sp.ip_version := by
  unfold createSubnetpool
  rw [if_pos hdef]
  rcases checkDefault_cases st sp.ip_version with h | h
  · rw [h]
    have hall := (checkDefault_ok_iff st sp.ip_version).mp h
    cases hv : validateAddressScopeId ctx st sp.address_scope_id none
        sp.prefixes sp.ip_version with
    | ok u =>
      simp only
      constructor
      · intro hc; cases hc
      · rintro ⟨p, hp, hd, hvv⟩; exact absurd hvv (hall p hp hd)
    | error e =>
      simp only
      constructor
      · intro hc
        cases hc
        exact absurd hv (validateAddressScopeId_not_invalid ctx st
          sp.address_scope_id none sp.prefixes sp.ip_version defaultExistsMsg)
      · rintro ⟨p, hp, hd, hvv⟩; exact absurd hvv (hall p hp hd)
  · rw [h]
    simp only
    constructor
    · intro _; exact (checkDefault_error_iff st sp.ip_version).mp h
    · intro _; trivial

/-- On update, after the merge succeeded, the duplicate-default rejection
occurs exactly when `is_default` newly becomes true and a default pool of the
family already exists; in particular a pool that is already the default
(`orig.is_default`) is never rejected by this check. -/
theorem updateSubnetpool_default_iff (ctx : PoolCtx) (st : PoolState)
    (id : String) (np : SubnetPoolUpdate) (orig u : SubnetPool)
    (hfind : st.pools.find? (fun p => p.id = id) = some orig)
    (hdict : updateSubnetpoolDict orig np = .ok u) :
    updateSubnetpool ctx st id np = .error (.invalidInput defaultExistsMsg) ↔
      (u.is_default = true ∧ orig.is_default = false ∧
        ∃ p ∈ st.pools, p.is_default = true ∧ p.ip_version = u.ip_version) := by
  unfold updateSubnetpool
  rw [hfind]
  simp only
  rw [hdict]
  simp only
  by_cases hg : (u.is_default && !orig.is_default) = true
  · rw [if_pos hg]
    simp only [Bool.and_eq_true, Bool.not_eq_true'] at hg
    rcases checkDefault_cases st u.ip_version with h | h
    · rw [h]
      simp only
      constructor
      · intro hc
        exfalso
        cases hallow : (match orig.address_scope_id with
                        | some asid => checkSubnetpoolUpdateAllowed ctx id asid
                        | none => Except.ok ()) with
        | ok u2 =>
          rw [hallow] at hc
          simp only at hc
          cases hv : validateAddressScopeId ctx st u.address_scope_id
              (some id) u.prefixes u.ip_version with
          | ok u3 => rw [hv] at hc; simp only at hc; cases hc
          | error e =>
            rw [hv] at hc
            simp only at hc
            cases hc
            exact absurd hv (validateAddressScopeId_not_invalid ctx st
              u.address_scope_id (some id) u.prefixes u.ip_version
              defaultExistsMsg)
        | error e =>
          rw [hallow] at hc
          simp only at hc
          cases hc
          cases he : orig.address_scope_id with
          | none => rw [he] at hallow; cases hallow
          | some asid =>
            rw [he] at hallow
            exact absurd hallow
              (checkSubnetpoolUpdateAllowed_not_invalid ctx id asid
                defaultExistsMsg)
      · rintro ⟨_, _, hex⟩
        exfalso
        have := (checkDefault_ok_iff st u.ip_version).mp h
        obtain ⟨p, hp, hd, hv⟩ := hex
        exact absurd hv (this p hp hd)
    · rw [h]
      simp only
      refine ⟨fun _ => ⟨hg.1, hg.2, ?_⟩, fun _ => trivial⟩
      exact (checkDefault_error_iff st u.ip_version).mp h
  · rw [if_neg hg]
    simp only [Bool.and_eq_true, Bool.not_eq_true'] at hg
    push_neg at hg
    constructor
    · intro hc
      exfalso
      cases hallow : (match orig.address_scope_id with
                      | some asid => checkSubnetpoolUpdateAllowed ctx id asid
                      | none => Except.ok ()) with
      | ok u2 =>
        rw [hallow] at hc
        simp only at hc
        cases hv : validateAddressScopeId ctx st u.address_scope_id
            (some id) u.prefixes u.ip_version with
        | ok u3 => rw [hv] at hc; simp only at hc; cases hc
        | error e =>
          rw [hv] at hc
          simp only at hc
          cases hc
          exact absurd hv (validateAddressScopeId_not_invalid ctx st
            u.address_scope_id (some id) u.prefixes u.ip_version
            defaultExistsMsg)
      | error e =>
        rw [hallow] at hc
        simp only at hc
        cases hc
        cases he : orig.address_scope_id with
        | none => rw [he] at hallow; cases hallow
        | some asid =>
          rw [he] at hallow
          exact absurd hallow
            (checkSubnetpoolUpdateAllowed_not_invalid ctx id asid
              defaultExistsMsg)
    · rintro ⟨h1, h2, _⟩
      exact absurd h2 (by simpa [h1] using hg h1)

theorem atMostOneDefault_create (ctx : PoolCtx) (st : PoolState)
    (sp : SubnetPool) (out : SubnetPool × PoolState)
    (hinv : AtMostOneDefault st)
    (hok : createSubnetpool ctx st sp = .ok out) :
    AtMostOneDefault out.2 := by
  obtain ⟨_, hchk, hout⟩ := createSubnetpool_ok_inv ctx st sp out hok
  subst hout
  intro p hp q hq hpd hqd hv
  simp only at hp hq
  rcases List.mem_append.mp hp with hp2 | hp2 <;>
    rcases List.mem_append.mp hq with hq2 | hq2
  · exact hinv p hp2 q hq2 hpd hqd hv
  · simp at hq2
    subst hq2
    have hall := (checkDefault_ok_iff st _).mp (hchk hqd)
    exact absurd hv (hall p hp2 hpd)
  · simp at hp2
    subst hp2
    have hall := (checkDefault_ok_iff st _).mp (hchk hpd)
    exact absurd hv.symm (hall q hq2 hqd)
  · simp at hp2 hq2
    subst hp2; subst hq2
    rfl

theorem atMostOneDefault_update (ctx : PoolCtx) (st : PoolState) (id : String)
    (np : SubnetPoolUpdate) (u : SubnetPool) (st2 : PoolState)
    (hinv : AtMostOneDefault st)
    (hok : updateSubnetpool ctx st id np = .ok (u, st2)) :
    AtMostOneDefault st2 := by
  obtain ⟨orig, hfind, hdict, hchk, _, hst2⟩ :=
    updateSubnetpool_ok_inv ctx st id np u st2 hok
  have horigmem : orig ∈ st.pools := List.mem_of_find?_eq_some hfind
  have horigid : orig.id = id := by simpa using List.find?_some hfind
  have huv : u.ip_version = orig.ip_version :=
    updateSubnetpoolDict_ip_version orig np u hdict
  have huid : u.id = orig.id := updateSubnetpoolDict_id orig np u hdict
  subst hst2
  intro p hp q hq hpd hqd hv
  simp only [List.mem_map] at hp hq
  obtain ⟨p0, hp0, rfl⟩ := hp
  obtain ⟨q0, hq0, rfl⟩ := hq
  by_cases hp1 : p0.id = id <;> by_cases hq1 : q0.id = id
  · rw [if_pos hp1, if_pos hq1]
  · rw [if_pos hp1] at hpd
    rw [if_neg hq1] at hqd
    rw [if_pos hp1, if_neg hq1] at hv
    rw [if_pos hp1, if_neg hq1]
    cases horigdef : orig.is_default with
    | true =>
      have heq := hinv orig horigmem q0 hq0 horigdef hqd
        (by rw [← huv]; exact hv)
      rw [huid, heq]
    | false =>
      have hgd : (u.is_default && !orig.is_default) = true := by
        simp [hpd, horigdef]
      have hall := (checkDefault_ok_iff st u.ip_version).mp (hchk hgd)
      exact absurd hv.symm (hall q0 hq0 hqd)
  · rw [if_neg hp1] at hpd
    rw [if_pos hq1] at hqd
    rw [if_neg hp1, if_pos hq1] at hv
    rw [if_neg hp1, if_pos hq1]
    cases horigdef : orig.is_default with
    | true =>
      have heq := hinv p0 hp0 orig horigmem hpd horigdef
        (by rw [huv] at hv; exact hv)
      rw [huid, heq]
    | false =>
      have hgd : (u.is_default && !orig.is_default) = true := by
        simp [hqd, horigdef]
      have hall := (checkDefault_ok_iff st u.ip_version).mp (hchk hgd)
      exact absurd hv (hall p0 hp0 hpd)
  · rw [if_neg hp1] at hpd
    rw [if_neg hq1] at hqd
    rw [if_neg hp1, if_neg hq1] at hv
    rw [if_neg hp1, if_neg hq1]
    exact hinv p0 hp0 q0 hq0 hpd hqd hv

/-- C4: a create with `is_default`, or an update turning `is_default`
newly true, is rejected with the duplicate-default error exactly when a
default pool of that IP family already exists (a pool that is already the
default is never rejected by this check, since `is_default` does not newly
become true for it); consequently both operations preserve the invariant
that at most one pool is the default of each IP family. -/
theorem default_subnetpool_unique :
    (∀ (ctx : PoolCtx) (st : PoolState) (sp : SubnetPool),
      sp.is_default = true →
      (createSubnetpool ctx st sp = .error (.invalidInput defaultExistsMsg) ↔
        ∃ p ∈ st.pools, p.is_default = true ∧ p.ip_version = sp.ip_version))
    ∧ (∀ (ctx : PoolCtx) (st : PoolState) (id : String)
        (np : SubnetPoolUpdate) (orig u : SubnetPool),
        st.pools.find? (fun p => p.id = id) = some orig →
        updateSubnetpoolDict orig np = .ok u →
        (updateSubnetpool ctx st id np =
            .error (.invalidInput defaultExistsMsg) ↔
          (u.is_default = true ∧ orig.is_default = false ∧
            ∃ p ∈ st.pools, p.is_default = true ∧
              p.ip_version = u.ip_version)))
    ∧ (∀ (ctx : PoolCtx) (st : PoolState) (sp : SubnetPool)
        (out : SubnetPool × PoolState),
        AtMostOneDefault st → createSubnetpool ctx st sp = .ok out →
        AtMostOneDefault out.2)
    ∧ (∀ (ctx : PoolCtx) (st : PoolState) (id : String)
        (np : SubnetPoolUpdate) (u : SubnetPool) (st2 : PoolState),
        AtMostOneDefault st → updateSubnetpool ctx st id np = .ok (u, st2) →
        AtMostOneDefault st2) :=
  ⟨createSubnetpool_default_iff, updateSubnetpool_default_iff,
    atMostOneDefault_create, atMostOneDefault_update⟩

/-- Witness for C4: creating a second default IPv4 pool is rejected with the
duplicate-default error. -/
theorem default_subnetpool_unique_witness :
    createSubnetpool ⟨[], []⟩
      ⟨[⟨"pool-d", "t1", 4, [Cidr.mk 4 167772160 8], 8, 32, 24, true, false,
        none⟩]⟩
      ⟨"pool-e", "t1", 4, [Cidr.mk 4 3232235520 16], 8, 32, 24, true, false,
        none⟩ = .error (.invalidInput defaultExistsMsg) :=
  (default_subnetpool_unique.1 ⟨[], []⟩
    ⟨[⟨"pool-d", "t1", 4, [Cidr.mk 4 167772160 8], 8, 32, 24, true, false,
      none⟩]⟩
    ⟨"pool-e", "t1", 4, [Cidr.mk 4 3232235520 16], 8, 32, 24, true, false,
      none⟩ rfl).mpr
    ⟨⟨"pool-d", "t1", 4, [Cidr.mk 4 167772160 8], 8, 32, 24, true, false,
      none⟩, by simp, rfl, rfl⟩

/-- C2: revoking the shared flag (true to false) is rejected with
`InvalidSharedSetting` exactly when the dependent tenants (owners of
non-network-infrastructure ports and of subnets on the network) are more
than one, or a single tenant different from the network owner; otherwise the
revocation check succeeds. -/
theorem shared_revocation_check (ports : List Port) (subnets : List SubnetRow)
    (id : String) (original : Network) (hshared : original.shared = true) :
    (validateSharedUpdate ports subnets id original false =
        .error (.invalidSharedSetting original.name) ↔
      (1 < (dependentTenants ports subnets id).card ∨
        ∃ t, t ≠ original.tenant_id ∧ dependentTenants ports subnets id = {t}))
    ∧ (¬ (1 < (dependentTenants ports subnets id).card ∨
        ∃ t, t ≠ original.tenant_id ∧
          dependentTenants ports subnets id = {t}) →
      validateSharedUpdate ports subnets id original false = .ok ()) := by
  have hfirst : ¬ ((false = original.shared) ∨ false = true) := by
    simp [hshared]
  set L := (((ports.filter (fun p => p.network_id = id)).filter
      (fun p => ¬ strStartsWith p.device_owner deviceOwnerNetworkPfx = true)).map
      (fun p => p.tenant_id) ++
    (subnets.filter (fun s => s.network_id = id)).map
      (fun s => s.tenant_id)) with hL
  have hcard : (dependentTenants ports subnets id).card = L.dedup.length := by
    rw [dependentTenants, ← hL, List.card_toFinset]
  have hset : dependentTenants ports subnets id = L.toFinset := by
    rw [dependentTenants, ← hL]
  have hcond : (1 < L.dedup.length ∨
      (L.dedup.length = 1 ∧ L.dedup.head? ≠ some original.tenant_id)) ↔
      (1 < (dependentTenants ports subnets id).card ∨
        ∃ t, t ≠ original.tenant_id ∧
          dependentTenants ports subnets id = {t}) := by
    rw [hcard, hset]
    have htf : L.dedup.toFinset = L.toFinset := by
      ext x
      simp [List.mem_toFinset, List.mem_dedup]
    constructor
    · rintro (h | ⟨h1, h2⟩)
      · exact Or.inl h
      · obtain ⟨t, ht⟩ := List.length_eq_one.mp h1
        refine Or.inr ⟨t, ?_, ?_⟩
        · rw [ht] at h2
          simp at h2
          exact h2
        · rw [← htf, ht]
          simp
    · rintro (h | ⟨t, ht1, ht2⟩)
      · exact Or.inl h
      · right
        have hlen : L.dedup.length = 1 := by
          rw [← List.card_toFinset, ht2]
          exact Finset.card_singleton t
        obtain ⟨u, hu⟩ := List.length_eq_one.mp hlen
        have : u = t := by
          have hmem : u ∈ L.toFinset := by
            rw [← htf, hu]
            simp
          rw [ht2] at hmem
          simpa using hmem
        refine ⟨hlen, ?_⟩
        rw [hu, this]
        simpa using ht1
  constructor
  · rw [validateSharedUpdate, if_neg hfirst]
    simp only [← hL]
    split
    · rename_i hc
      constructor
      · intro _
        exact hcond.mp hc
      · intro _
        rfl
    · rename_i hc
      constructor
      · intro he; cases he
      · intro hx
        exact absurd (hcond.mpr hx) hc
  · intro hx
    rw [validateSharedUpdate, if_neg hfirst]
    simp only [← hL]
    split
    · rename_i hc
      exact absurd (hcond.mp hc) hx
    · rfl

/-- Witness for C2: ports of two distinct tenants block the revocation. -/
theorem shared_revocation_check_witness :
    validateSharedUpdate
      [⟨"net1", "tA", "compute:nova"⟩, ⟨"net1", "tB", "compute:nova"⟩] []
      "net1" ⟨"net1", "n1", "tA", true⟩ false =
      .error (.invalidSharedSetting "n1") := by
  refine (shared_revocation_check
    [⟨"net1", "tA", "compute:nova"⟩, ⟨"net1", "tB", "compute:nova"⟩] []
    "net1" ⟨"net1", "n1", "tA", true⟩ rfl).1.mpr ?_
  left
  decide

theorem dictGet_dictSet_same (d : FieldDict) (k : String) (v : FieldVal) :
    dictGet (dictSet d k v) k = some v := by
  simp [dictGet, dictSet, List.find?]

theorem dictGet_dictSet_other (d : FieldDict) (k : String) (v : FieldVal)
    (k2 : String) (h : k2 ≠ k) :
    dictGet (dictSet d k v) k2 = dictGet d k2 := by
  simp only [dictGet, dictSet]
  rw [List.find?_cons_of_neg _ (by simp; exact fun hc => h hc.symm)]
  congr 1
  induction d with
  | nil => rfl
  | cons e es ih =>
    rw [List.filter_cons]
    by_cases he : e.1 = k
    · rw [if_neg (by simp [he]), ih,
        List.find?_cons_of_neg _ (by simp [he]; exact fun hc => h hc.symm)]
    · rw [if_pos (by simp [he])]
      by_cases hm : e.1 = k2
      · rw [List.find?_cons_of_pos _ (by simp [hm]),
            List.find?_cons_of_pos _ (by simp [hm])]
      · rw [List.find?_cons_of_neg _ (by simp [hm]),
            List.find?_cons_of_neg _ (by simp [hm]), ih]

/-- C8: the loop over min/max/default prefixlen writes only the literal
key `"key"`, whose final value is the string form of the last field iterated
(`default_prefixlen`); the three prefix-length entries themselves are left
unchanged and unconverted. -/
theorem update_subnetpool_key_loop (d : FieldDict) (a b c : Nat)
    (hmin : dictGet d "min_prefixlen" = some (.num a))
    (hmax : dictGet d "max_prefixlen" = some (.num b))
    (hdef : dictGet d "default_prefixlen" = some (.num c)) :
    dictGet (stringifyPrefixlenLoop d) "key" = some (.str (toString c)) ∧
    dictGet (stringifyPrefixlenLoop d) "min_prefixlen" = some (.num a) ∧
    dictGet (stringifyPrefixlenLoop d) "max_prefixlen" = some (.num b) ∧
    dictGet (stringifyPrefixlenLoop d) "default_prefixlen" = some (.num c) := by
  have hks : ("min_prefixlen" : String) ≠ "key" ∧
      ("max_prefixlen" : String) ≠ "key" ∧
      ("default_prefixlen" : String) ≠ "key" := by
    refine ⟨?_, ?_, ?_⟩ <;> decide
  simp only [stringifyPrefixlenLoop, List.foldl]
  rw [dictGet_dictSet_other _ _ _ _ hks.2.1, hmax,
      dictGet_dictSet_other _ _ _ _ hks.2.2,
      dictGet_dictSet_other _ _ _ _ hks.2.2, hdef]
  refine ⟨dictGet_dictSet_same _ _ _, ?_, ?_, ?_⟩
  · rw [dictGet_dictSet_other _ _ _ _ hks.1,
        dictGet_dictSet_other _ _ _ _ hks.1,
        dictGet_dictSet_other _ _ _ _ hks.1]
    exact hmin
  · rw [dictGet_dictSet_other _ _ _ _ hks.2.1,
        dictGet_dictSet_other _ _ _ _ hks.2.1,
        dictGet_dictSet_other _ _ _ _ hks.2.1]
    exact hmax
  · rw [dictGet_dictSet_other _ _ _ _ hks.2.2,
        dictGet_dictSet_other _ _ _ _ hks.2.2,
        dictGet_dictSet_other _ _ _ _ hks.2.2]
    exact hdef

/-- Witness for C8 on a concrete dictionary. -/
theorem update_subnetpool_key_loop_witness :
    dictGet (stringifyPrefixlenLoop
      [("min_prefixlen", .num 8), ("max_prefixlen", .num 32),
       ("default_prefixlen", .num 24)]) "key" = some (.str "24") ∧
    dictGet (stringifyPrefixlenLoop
      [("min_prefixlen", .num 8), ("max_prefixlen", .num 32),
       ("default_prefixlen", .num 24)]) "min_prefixlen" = some (.num 8) ∧
    dictGet (stringifyPrefixlenLoop
      [("min_prefixlen", .num 8), ("max_prefixlen", .num 32),
       ("default_prefixlen", .num 24)]) "max_prefixlen" = some (.num 32) ∧
    dictGet (stringifyPrefixlenLoop
      [("min_prefixlen", .num 8), ("max_prefixlen", .num 32),
       ("default_prefixlen", .num 24)]) "default_prefixlen" =
      some (.num 24) :=
  update_subnetpool_key_loop
    [("min_prefixlen", .num 8), ("max_prefixlen", .num 32),
     ("default_prefixlen", .num 24)] 8 32 24 rfl rfl rfl

/-- C9: `update_port` converts exactly the `IpAddressAllocationNotFound`
IPAM failure into a `RetryRequest`; every other failure — validation errors
and every other IPAM exception — is surfaced unconverted, and a
`RetryRequest` can only arise from that one failure. -/
theorem update_port_retry_conversion (va : Option String)
    (ir : Except IpamExc Unit) (p : Port) :
    (va = none → ir = .error .ipAddressAllocationNotFound →
      updatePort va ir p = .error (.retryRequest .ipAddressAllocationNotFound))
    ∧ (∀ e, va = none → ir = .error e → e ≠ .ipAddressAllocationNotFound →
      updatePort va ir p = .error (.ipam e))
    ∧ (∀ m, va = some m → updatePort va ir p = .error (.validation m))
    ∧ (∀ e, updatePort va ir p = .error (.retryRequest e) →
      e = .ipAddressAllocationNotFound ∧ va = none ∧
        ir = .error .ipAddressAllocationNotFound) := by
  refine ⟨?_, ?_, ?_, ?_⟩
  · intro hva hir
    subst hva; subst hir
    rfl
  · intro e hva hir hne
    subst hva; subst hir
    cases e with
    | ipAddressAllocationNotFound => exact absurd rfl hne
    | deferIpam => rfl
    | other m => rfl
  · intro m hva
    subst hva
    rfl
  · intro e he
    cases va with
    | some m => cases he
    | none =>
      cases ir with
      | ok u => cases he
      | error e2 =>
        cases e2 with
        | ipAddressAllocationNotFound =>
          cases he
          exact ⟨rfl, rfl, rfl⟩
        | deferIpam => cases he
        | other m => cases he

/-- Witness for C9: the concurrent-subnet-deletion signature is converted
into a retry signal. -/
theorem update_port_retry_conversion_witness :
    updatePort none (.error .ipAddressAllocationNotFound)
      ⟨"net1", "tA", "compute:nova"⟩ =
      .error (.retryRequest .ipAddressAllocationNotFound) :=
  (update_port_retry_conversion none (.error .ipAddressAllocationNotFound)
    ⟨"net1", "tA", "compute:nova"⟩).1 rfl rfl

/-- C10: a create_subnet request carrying both a concrete cidr and a
concrete prefixlen is rejected as a BadRequest whatever the rest of the
operation would do, and the state is returned unchanged — no validation,
pool lookup or allocation is attempted. -/
theorem create_subnet_cidr_prefixlen_guard {σ β : Type} (st : σ)
    (s : SubnetCreateReq) (rest : σ → Except SubnetOpError β × σ)
    (hc : s.cidr.isSome = true) (hp : s.prefixlen.isSome = true) :
    createSubnet st s rest =
      (.error (.badRequest "subnets"
        "cidr and prefixlen must not be supplied together"), st) := by
  unfold createSubnet
  rw [if_pos (by simp [hc, hp])]

/-- Witness for C10 at a concrete request and continuation. -/
theorem create_subnet_cidr_prefixlen_guard_witness :
    createSubnet (0 : Nat)
      ⟨some (Cidr.mk 4 167772160 24), some 24⟩
      (fun st => (Except.ok 7, st + 1)) =
      (.error (.badRequest "subnets"
        "cidr and prefixlen must not be supplied together"), 0) :=
  create_subnet_cidr_prefixlen_guard 0
    ⟨some (Cidr.mk 4 167772160 24), some 24⟩
    (fun st => (Except.ok 7, st + 1)) rfl rfl

theorem seqE_ok (y : Except SubnetOpError Unit) : seqE (.ok ()) y = y := rfl

theorem seqE_error (e : SubnetOpError) (y : Except SubnetOpError Unit) :
    seqE (.error e) y = .error e := rfl

/-- C5: when stateless auto-addressing is implied (SLAAC or
DHCPv6-stateless), the EUI-64 check accepts exactly prefix length 64 and
raises InvalidInput otherwise; in particular creating an IPv6 subnet with
`ipv6_address_mode=slaac` and a /80 prefix fails the whole subnet
validation. -/
theorem eui64_slaac_prefix_check :
    (∀ (s : SubnetSpec) (c : Cidr),
      isAutoAddressSubnet s.ipv6_ra_mode s.ipv6_address_mode = true →
      s.cidr = some c →
      (validateEui64Applicable s = .ok () ↔ c.plen = 64) ∧
      (c.plen ≠ 64 →
        validateEui64Applicable s = .error (.invalidInput eui64Msg)))
    ∧ validateSubnet ⟨5, 20⟩ []
        { ip_version := 6,
          cidr := some ⟨6, 42540766411282592856903984951653826560, 80⟩,
          enable_dhcp := some true, ipv6_address_mode := some .slaac }
        none = .error (.invalidInput eui64Msg) := by
  constructor
  · intro s c hauto hc
    have h1 : validateEui64Applicable s =
        (if c.plen ≠ 64 then .error (.invalidInput eui64Msg) else .ok ()) := by
      unfold validateEui64Applicable
      rw [if_pos hauto, hc]
    rw [h1]
    by_cases hp : c.plen = 64
    · rw [if_neg (by simpa using hp)]
      exact ⟨⟨fun _ => hp, fun _ => rfl⟩, fun hne => absurd hp hne⟩
    · rw [if_pos hp]
      constructor
      · constructor
        · intro hcon; cases hcon
        · intro heq; exact absurd heq hp
      · intro _; rfl
  · decide

/-- Witness for the general part of C5: with SLAAC implied, a /72 cidr is
rejected and a /64 cidr passes the EUI-64 check. -/
theorem eui64_slaac_prefix_check_witness :
    validateEui64Applicable
      { ip_version := 6,
        cidr := some ⟨6, 42540766411282592856903984951653826560, 72⟩,
        enable_dhcp := some true, ipv6_address_mode := some .slaac } =
      .error (.invalidInput eui64Msg) :=
  (eui64_slaac_prefix_check.1
    { ip_version := 6,
      cidr := some ⟨6, 42540766411282592856903984951653826560, 72⟩,
      enable_dhcp := some true, ipv6_address_mode := some .slaac }
    ⟨6, 42540766411282592856903984951653826560, 72⟩ rfl rfl).2 (by decide)

/-- C6: when DHCP is newly enabled (requested true while not already
enabled on the pre-existing subnet), validation raises InvalidInput whenever
the prefix length exceeds 30 (IPv4) / 126 (IPv6) or the cidr is a multicast
or loopback range, and the DHCP section accepts exactly when none of these
hold; when DHCP was already enabled the section is skipped entirely. -/
theorem dhcp_enable_prefix_and_range_checks :
    (∀ (cfg : ValidateCfg) (allocations : List IPAllocationRow)
       (s : SubnetSpec) (cur : Option CurSubnet) (c : Cidr),
      s.cidr = some c → s.enable_dhcp = some true →
      c.version = s.ip_version →
      dhcpWasEnabled cur = false →
      ((((s.ip_version = 4 ∧ 30 < c.plen) ∨
          (s.ip_version = 6 ∧ 126 < c.plen) ∨
          isMulticastCidr c = true ∨ isLoopbackCidr c = true) →
        ∃ m, validateSubnet cfg allocations s cur =
          .error (.invalidInput m)) ∧
      (validateDhcpChecks s false = .ok () ↔
        ¬ ((s.ip_version = 4 ∧ 30 < c.plen) ∨
          (s.ip_version = 6 ∧ 126 < c.plen) ∨
          isMulticastCidr c = true ∨ isLoopbackCidr c = true))))
    ∧ (∀ s : SubnetSpec, validateDhcpChecks s true = .ok ()) := by
  constructor
  · intro cfg allocations s cur c hc hdhcp hver hwas
    have hrun : validateDhcpChecks s false =
        (if (s.ip_version = 4 ∧ 30 < c.plen) ∨ (s.ip_version = 6 ∧ 126 < c.plen)
         then .error (.invalidInput
           "Subnet has a prefix length that is incompatible with DHCP service enabled")
         else if isMulticastCidr c then .error (.invalidInput
           "Multicast IP subnet is not supported if enable_dhcp is True")
         else if isLoopbackCidr c then .error (.invalidInput
           "Loopback IP subnet is not supported if enable_dhcp is True")
         else .ok ()) := by
      unfold validateDhcpChecks
      rw [if_pos (by simp [hdhcp]), hc]
    have hstep1 : (match s.cidr with
        | some c2 => validateIpVersionField s.ip_version c2.version "cidr"
        | none => .ok ()) = .ok () := by
      rw [hc]
      show validateIpVersionField s.ip_version c.version "cidr" = .ok ()
      unfold validateIpVersionField
      rw [if_neg (by simp [hver])]
    constructor
    · intro hviol
      have herr : ∃ m, validateDhcpChecks s false =
          .error (.invalidInput m) := by
        rw [hrun]
        by_cases h1 : (s.ip_version = 4 ∧ 30 < c.plen) ∨
            (s.ip_version = 6 ∧ 126 < c.plen)
        · rw [if_pos h1]; exact ⟨_, rfl⟩
        · rw [if_neg h1]
          by_cases h2 : isMulticastCidr c = true
          · rw [if_pos h2]; exact ⟨_, rfl⟩
          · rw [if_neg h2]
            have h3 : isLoopbackCidr c = true := by tauto
            rw [if_pos h3]; exact ⟨_, rfl⟩
      obtain ⟨m, hm⟩ := herr
      refine ⟨m, ?_⟩
      have harg : validateDhcpChecks s (dhcpWasEnabled cur) =
          .error (.invalidInput m) := by
        rw [hwas]; exact hm
      unfold validateSubnet
      rw [hstep1, seqE_ok, harg, seqE_error]
    · rw [hrun]
      by_cases h1 : (s.ip_version = 4 ∧ 30 < c.plen) ∨
          (s.ip_version = 6 ∧ 126 < c.plen)
      · rw [if_pos h1]
        constructor
        · intro hcon; cases hcon
        · intro hmm
          exact absurd (Or.elim h1 (fun ha => Or.inl ha)
            (fun hb => Or.inr (Or.inl hb))) hmm
      · rw [if_neg h1]
        by_cases h2 : isMulticastCidr c = true
        · rw [if_pos h2]
          constructor
          · intro hcon; cases hcon
          · intro hmm; exact absurd (Or.inr (Or.inr (Or.inl h2))) hmm
        · rw [if_neg h2]
          by_cases h3 : isLoopbackCidr c = true
          · rw [if_pos h3]
            constructor
            · intro hcon; cases hcon
            · intro hmm; exact absurd (Or.inr (Or.inr (Or.inr h3))) hmm
          · rw [if_neg h3]
            constructor
            · intro _
              rintro (hx | hx | hx | hx)
              · exact h1 (Or.inl hx)
              · exact h1 (Or.inr hx)
              · exact h2 hx
              · exact h3 hx
            · intro _; rfl
  · intro s
    unfold validateDhcpChecks
    rw [if_neg (by simp)]

/-- Witness for C6: an IPv4 /31 with DHCP requested at creation is
rejected. -/
theorem dhcp_enable_prefix_and_range_checks_witness :
    ∃ m, validateSubnet ⟨5, 20⟩ []
      { ip_version := 4, cidr := some ⟨4, 167772160, 31⟩,
        enable_dhcp := some true } none = .error (.invalidInput m) :=
  (dhcp_enable_prefix_and_range_checks.1 ⟨5, 20⟩ []
    { ip_version := 4, cidr := some ⟨4, 167772160, 31⟩,
      enable_dhcp := some true } none ⟨4, 167772160, 31⟩
    rfl rfl rfl rfl).1 (Or.inl ⟨rfl, by decide⟩)

/-- C7: on update with a gateway supplied and prefix delegation off, if
the allocation query finds the old gateway bound on this subnet to a port
joined to a router (and the port id is set), the update is rejected as
gateway-in-use reporting that port; when the query finds nothing the section
passes, and at creation (no current subnet) the in-use check never fires. -/
theorem gateway_in_use_check :
    (∀ (s : SubnetSpec) (cs : CurSubnet)
       (allocations : List IPAllocationRow) (gw : IpAddr) (c : Cidr)
       (al : IPAllocationRow),
      s.gateway_ip = some gw → gw.version = s.ip_version → s.cidr = some c →
      checkGatewayInvalidInSubnet c gw = false → isIpv6PdEnabled s = false →
      gatewayAllocQuery allocations cs = some al → al.port_id ≠ "" →
      validateGatewaySection s (some cs) allocations =
        .error (.gatewayIpInUse al.ip_address al.port_id))
    ∧ (∀ (s : SubnetSpec) (cs : CurSubnet)
       (allocations : List IPAllocationRow) (gw : IpAddr) (c : Cidr),
      s.gateway_ip = some gw → gw.version = s.ip_version → s.cidr = some c →
      checkGatewayInvalidInSubnet c gw = false → isIpv6PdEnabled s = false →
      gatewayAllocQuery allocations cs = none →
      validateGatewaySection s (some cs) allocations = .ok ())
    ∧ (∀ (allocations : List IPAllocationRow) (cs : CurSubnet)
       (al : IPAllocationRow),
      gatewayAllocQuery allocations cs = some al →
      al.port_has_routerport = true ∧ some al.ip_address = cs.gateway_ip ∧
        al.subnet_id = cs.id)
    ∧ (∀ (s : SubnetSpec) (allocations : List IPAllocationRow) (ip : IpAddr)
       (pid : String),
      validateGatewaySection s none allocations ≠
        .error (.gatewayIpInUse ip pid)) := by
  refine ⟨?_, ?_, ?_, ?_⟩
  · intro s cs allocations gw c al hgw hver hc hvalid hpd hq hpid
    have hv : validateIpVersionField s.ip_version gw.version "gateway_ip" =
        .ok () := by
      unfold validateIpVersionField
      rw [if_neg (by simp [hver])]
    simp only [validateGatewaySection, hgw, hv, hc, hvalid, hpd, hq]
    simp [hpid]
  · intro s cs allocations gw c hgw hver hc hvalid hpd hq
    have hv : validateIpVersionField s.ip_version gw.version "gateway_ip" =
        .ok () := by
      unfold validateIpVersionField
      rw [if_neg (by simp [hver])]
    simp only [validateGatewaySection, hgw, hv, hc, hvalid, hpd, hq]
    simp
  · intro allocations cs al hq
    have hp := List.find?_some hq
    simp only [Bool.and_eq_true, beq_iff_eq, decide_eq_true_eq] at hp
    exact ⟨hp.1.1, hp.1.2, hp.2⟩
  · intro s allocations ip pid
    cases hg : s.gateway_ip with
    | none => simp [validateGatewaySection, hg]
    | some gw =>
      simp only [validateGatewaySection, hg]
      cases hv : validateIpVersionField s.ip_version gw.version "gateway_ip"
        with
      | error e =>
        simp only [hv]
        unfold validateIpVersionField at hv
        split at hv
        · cases hv
          intro hcon
          cases hcon
        · cases hv
      | ok u =>
        simp only [hv]
        cases hc : s.cidr with
        | none => simp [hc]
        | some c =>
          simp only [hc]
          split
          · intro hcon; cases hcon
          · simp

/-- Witness for C7: the old gateway allocated to a router port blocks the
gateway update. -/
theorem gateway_in_use_check_witness :
    validateGatewaySection
      { ip_version := 4, cidr := some ⟨4, 167772160, 24⟩,
        gateway_ip := some ⟨4, 167772170⟩ }
      (some ⟨"sub-1", true, some ⟨4, 167772161⟩, none, none⟩)
      [⟨⟨4, 167772161⟩, "sub-1", "port-9", true⟩] =
      .error (.gatewayIpInUse ⟨4, 167772161⟩ "port-9") :=
  gateway_in_use_check.1
    { ip_version := 4, cidr := some ⟨4, 167772160, 24⟩,
      gateway_ip := some ⟨4, 167772170⟩ }
    ⟨"sub-1", true, some ⟨4, 167772161⟩, none, none⟩
    [⟨⟨4, 167772161⟩, "sub-1", "port-9", true⟩]
    ⟨4, 167772170⟩ ⟨4, 167772160, 24⟩
    ⟨⟨4, 167772161⟩, "sub-1", "port-9", true⟩
    rfl rfl rfl (by decide) rfl (by decide) (by decide)

